import Mathlib

/-!
# Boundary coupling of the DynamicBoundaryDemo (SPlisHSPlasH)

A shallow embedding of `src/SPlisHSPlasH/FluidModel.h` and of
`src/Demos/DynamicBoundaryDemo/main.cpp`.

* `Real` is a type `α` with the operations `0`, `1`, `+`, `-`, `*` that the
  source uses. Theorems about exact arithmetic take `α` to be a commutative
  ring; `FloatReal` is the rounding arithmetic of `double` and `float`.
* `std::vector` is `List`; an access outside the vector has no defined
  result and is modelled as `none`.
* `unsigned int` is a natural number below `2 ^ 32`, `size_t` one below
  `2 ^ 64`, `int` an integer in `[-2 ^ 31, 2 ^ 31)`; every conversion the
  source performs is written out.
* Objects reached through a pointer (`m_rigidBody`) are stored by value in
  their owner; every particle object owns its own adapter object
  (`new PBDRigidBody(...)` in `initBoundaryData`).
-/

namespace SPH

/-! ## Eigen vectors and matrices -/

/-- Eigen `Vector3r`: a vector of three scalars. -/
@[ext] structure Vector3r (α : Type) where
  x : α
  y : α
  z : α
deriving DecidableEq

/-- Eigen `Matrix3r`, stored by rows. -/
@[ext] structure Matrix3r (α : Type) where
  r0 : Vector3r α
  r1 : Vector3r α
  r2 : Vector3r α
deriving DecidableEq

namespace Vector3r

variable {α : Type} [Zero α] [One α] [Add α] [Sub α] [Mul α]

/-- Eigen `setZero` / `Vector3r::Zero()`. -/
def setZero : Vector3r α := ⟨0, 0, 0⟩

/-- Eigen `operator+`. -/
def add (a b : Vector3r α) : Vector3r α := ⟨a.x + b.x, a.y + b.y, a.z + b.z⟩

/-- Eigen `operator-`. -/
def sub (a b : Vector3r α) : Vector3r α := ⟨a.x - b.x, a.y - b.y, a.z - b.z⟩

/-- Eigen `dot`. -/
def dot (a b : Vector3r α) : α := a.x * b.x + a.y * b.y + a.z * b.z

/-- Eigen `cross`. -/
def cross (a b : Vector3r α) : Vector3r α :=
  ⟨a.y * b.z - a.z * b.y, a.z * b.x - a.x * b.z, a.x * b.y - a.y * b.x⟩

instance : Zero (Vector3r α) := ⟨setZero⟩
instance : Add (Vector3r α) := ⟨add⟩
instance : Sub (Vector3r α) := ⟨sub⟩

/-- Sum of a list of vectors, `v₀ + (v₁ + (… + 0))`: the mathematical sum
the specification speaks of. -/
def sum : List (Vector3r α) → Vector3r α
  | [] => 0
  | v :: vs => v + sum vs

end Vector3r

namespace Matrix3r

variable {α : Type} [Zero α] [One α] [Add α] [Sub α] [Mul α]

/-- Eigen `Matrix3r::Identity()`. -/
def identity : Matrix3r α := ⟨⟨1, 0, 0⟩, ⟨0, 1, 0⟩, ⟨0, 0, 1⟩⟩

/-- Eigen matrix-vector product `M * v`. -/
def mulVec (m : Matrix3r α) (v : Vector3r α) : Vector3r α :=
  ⟨m.r0.dot v, m.r1.dot v, m.r2.dot v⟩

/-- Eigen `transpose()`. -/
def transpose (m : Matrix3r α) : Matrix3r α :=
  ⟨⟨m.r0.x, m.r1.x, m.r2.x⟩, ⟨m.r0.y, m.r1.y, m.r2.y⟩, ⟨m.r0.z, m.r1.z, m.r2.z⟩⟩

/-- Eigen matrix product `A * B`. -/
def mul (a b : Matrix3r α) : Matrix3r α :=
  ⟨⟨a.r0.dot b.transpose.r0, a.r0.dot b.transpose.r1, a.r0.dot b.transpose.r2⟩,
    ⟨a.r1.dot b.transpose.r0, a.r1.dot b.transpose.r1, a.r1.dot b.transpose.r2⟩,
    ⟨a.r2.dot b.transpose.r0, a.r2.dot b.transpose.r1, a.r2.dot b.transpose.r2⟩⟩

end Matrix3r

/-! ## Machine integers -/

/-- Number of values of `unsigned int`. -/
def UINT_SIZE : Nat := 2 ^ 32

/-- Number of values of `size_t`. -/
def SIZE_T_SIZE : Nat := 2 ^ 64

/-- The conversion `static_cast<unsigned int>(n)`: reduction modulo `2 ^ 32`. -/
def toUnsignedInt (n : Nat) : Nat := n % UINT_SIZE

/-- The `size_t` subtraction `n - 1`, which wraps around at `n = 0`. -/
def sizeSubOne (n : Nat) : Nat := (SIZE_T_SIZE + n % SIZE_T_SIZE - 1) % SIZE_T_SIZE

/-- The conversion `(int)n` of an `unsigned int`. It keeps the value when the
value fits; for a value above `INT_MAX` the result is implementation-defined
and the model gives none. -/
def toInt (n : Nat) : Option Int :=
  if n < 2 ^ 31 then some (n : Int) else none

/-- A counted loop `for (k = i; k < i + n; k++) body(k)` over a state that
stops without a result as soon as one iteration has none. -/
def forLoop {σ : Type} (body : Nat → σ → Option σ) : Nat → Nat → σ → Option σ
  | 0, _, s => some s
  | n + 1, i, s => (body i s).bind (forLoop body n (i + 1))

/-! ## The rigid body adapter -/

/-- One call received by a rigid body adapter that changes the body. -/
inductive AdapterCall (α : Type) where
  | updateTimeStepSize : AdapterCall α
  | addForce (f : Vector3r α) : AdapterCall α
  | addTorque (t : Vector3r α) : AdapterCall α
deriving DecidableEq

/-- Modelled from the spec: the Rigid Body Adapter `RigidBodyObject`
(`RigidBodyObject.h` and `PBDRigidBody.h` are not among the sources). It
answers `isDynamic`, `getRotation`, `getPosition`, `getVelocity` and
`getAngularVelocity`; the calls `updateTimeStepSize`, `addForce` and
`addTorque` are handed to the external integrator, of which nothing is
assumed: they are recorded, in order, in `calls`. -/
structure RigidBodyObject (α : Type) where
  isDynamic : Bool
  getRotation : Matrix3r α
  getPosition : Vector3r α
  getVelocity : Vector3r α
  getAngularVelocity : Vector3r α
  calls : List (AdapterCall α)
deriving DecidableEq

namespace RigidBodyObject

variable {α : Type}

/-- The call `((PBDRigidBody*)rbo)->updateTimeStepSize()`. -/
def updateTimeStepSize (rbo : RigidBodyObject α) : RigidBodyObject α :=
  { rbo with calls := rbo.calls ++ [AdapterCall.updateTimeStepSize] }

/-- The call `rbo->addForce(f)`. -/
def addForce (rbo : RigidBodyObject α) (f : Vector3r α) : RigidBodyObject α :=
  { rbo with calls := rbo.calls ++ [AdapterCall.addForce f] }

/-- The call `rbo->addTorque(t)`. -/
def addTorque (rbo : RigidBodyObject α) (t : Vector3r α) : RigidBodyObject α :=
  { rbo with calls := rbo.calls ++ [AdapterCall.addTorque t] }

end RigidBodyObject

/-! ## The particle store (`FluidModel.h`) -/

/-- The struct `FluidModel::ParticleObject`. -/
structure ParticleObject (α : Type) where
  m_x0 : List (Vector3r α)
  m_x : List (Vector3r α)
  m_v : List (Vector3r α)
deriving DecidableEq

/-- The struct `FluidModel::RigidBodyParticleObject`. -/
structure RigidBodyParticleObject (α : Type) extends ParticleObject α where
  m_rigidBody : RigidBodyObject α
  m_boundaryPsi : List α
  m_f : List (Vector3r α)
deriving DecidableEq

/-- A `ParticleObject*` together with the dynamic type of what it points to. -/
inductive ParticleObjectPtr (α : Type) where
  | base (p : ParticleObject α) : ParticleObjectPtr α
  | rigid (p : RigidBodyParticleObject α) : ParticleObjectPtr α
deriving DecidableEq

/-- The `ParticleObject` part of a pointee. -/
def ParticleObjectPtr.toBase {α : Type} : ParticleObjectPtr α → ParticleObject α
  | ParticleObjectPtr.base p => p
  | ParticleObjectPtr.rigid p => p.toParticleObject

/-- The member function `ParticleObject::numberOfParticles`. -/
def ParticleObject.numberOfParticles {α : Type} (p : ParticleObject α) : Nat :=
  toUnsignedInt p.m_x.length

/-- The part of `FluidModel` the boundary coupling works on. -/
structure FluidModel (α : Type) where
  m_particleObjects : List (ParticleObjectPtr α)
deriving DecidableEq

namespace FluidModel

variable {α : Type}

/-- The member function `getRigidBodyParticleObject`: element `index + 1`
(an `unsigned int` sum) of `m_particleObjects`, cast to the derived struct.
No result outside the vector or when the element is not of the derived
struct. -/
def getRigidBodyParticleObject (m : FluidModel α) (index : Nat) :
    Option (RigidBodyParticleObject α) :=
  match m.m_particleObjects[toUnsignedInt (index + 1)]? with
  | some (ParticleObjectPtr.rigid p) => some p
  | _ => none

/-- The member function `numberOfRigidBodyParticleObjects`. -/
def numberOfRigidBodyParticleObjects (m : FluidModel α) : Nat :=
  toUnsignedInt (sizeSubOne m.m_particleObjects.length)

/-- The member function `getPosition(objectIndex, i)`. -/
def getPosition (m : FluidModel α) (objectIndex i : Nat) : Option (Vector3r α) :=
  (m.m_particleObjects[objectIndex]?).bind fun p => p.toBase.m_x[i]?

/-- The member function `getVelocity(objectIndex, i)`. -/
def getVelocity (m : FluidModel α) (objectIndex i : Nat) : Option (Vector3r α) :=
  (m.m_particleObjects[objectIndex]?).bind fun p => p.toBase.m_v[i]?

/-- The member function `getForce(objectIndex, i)`, with its cast to the
derived struct. -/
def getForce (m : FluidModel α) (objectIndex i : Nat) : Option (Vector3r α) :=
  match m.m_particleObjects[objectIndex]? with
  | some (ParticleObjectPtr.rigid p) => p.m_f[i]?
  | _ => none

/-- Writing through the pointer `getRigidBodyParticleObject(index)`. -/
def setRigidBodyParticleObject (m : FluidModel α) (index : Nat)
    (p : RigidBodyParticleObject α) : FluidModel α :=
  { m with m_particleObjects :=
      m.m_particleObjects.set (toUnsignedInt (index + 1)) (ParticleObjectPtr.rigid p) }

end FluidModel

/-! ## Kinematic sync and force reduction (`main.cpp`) -/

section coupling

variable {α : Type} [Zero α] [One α] [Add α] [Sub α] [Mul α]

/-- Body of the inner loop of `updateBoundaryParticles`, for particle `j`:
`m_x[j] = R * m_x0[j] + pos`, then
`m_v[j] = ω.cross(m_x[j] - pos) + vel` with the `m_x[j]` just written. -/
def updateBoundaryParticle (rbo : RigidBodyObject α) (j : Nat)
    (rbpo : RigidBodyParticleObject α) : Option (RigidBodyParticleObject α) :=
  match rbpo.m_x0[j]? with
  | none => none
  | some x0 =>
    if j < rbpo.m_x.length then
      let m_x := rbpo.m_x.set j (rbo.getRotation.mulVec x0 + rbo.getPosition)
      match m_x[j]? with
      | none => none
      | some xj =>
        if j < rbpo.m_v.length then
          some { rbpo with
            m_x := m_x
            m_v := rbpo.m_v.set j
              (rbo.getAngularVelocity.cross (xj - rbo.getPosition) + rbo.getVelocity) }
        else none
    else none

/-- Body of the outer loop of `updateBoundaryParticles`, for object `i`. -/
def updateBoundaryParticlesObject (forceUpdate : Bool) (i : Nat) (m : FluidModel α) :
    Option (FluidModel α) :=
  match m.getRigidBodyParticleObject i with
  | none => none
  | some rbpo =>
    let rbo := rbpo.m_rigidBody
    if rbo.isDynamic || forceUpdate then
      match toInt rbpo.numberOfParticles with
      | none => none
      | some n =>
        (forLoop (updateBoundaryParticle rbo) n.toNat 0 rbpo).map
          (m.setRigidBodyParticleObject i)
    else some m

/-- The function `updateBoundaryParticles(forceUpdate)` of `main.cpp`. -/
def updateBoundaryParticles (forceUpdate : Bool) (m : FluidModel α) : Option (FluidModel α) :=
  forLoop (updateBoundaryParticlesObject forceUpdate) m.numberOfRigidBodyParticleObjects 0 m

/-- State of the inner loop of `updateBoundaryForces`. -/
structure ForceLoopState (α : Type) where
  force : Vector3r α
  torque : Vector3r α
  rbpo : RigidBodyParticleObject α

/-- Body of the inner loop of `updateBoundaryForces`, for particle `j`:
`force += m_f[j]`, `torque += (m_x[j] - pos).cross(m_f[j])`,
`m_f[j].setZero()`. -/
def updateBoundaryForce (j : Nat) (s : ForceLoopState α) : Option (ForceLoopState α) :=
  match s.rbpo.m_f[j]?, s.rbpo.m_x[j]? with
  | some fj, some xj =>
    some
      { force := s.force + fj
        torque := s.torque + (xj - s.rbpo.m_rigidBody.getPosition).cross fj
        rbpo := { s.rbpo with m_f := s.rbpo.m_f.set j Vector3r.setZero } }
  | _, _ => none

/-- Body of the outer loop of `updateBoundaryForces`, for object `i`. -/
def updateBoundaryForcesObject (i : Nat) (m : FluidModel α) : Option (FluidModel α) :=
  match m.getRigidBodyParticleObject i with
  | none => none
  | some rbpo =>
    if rbpo.m_rigidBody.isDynamic then
      let rbpo1 := { rbpo with m_rigidBody := rbpo.m_rigidBody.updateTimeStepSize }
      match toInt rbpo1.numberOfParticles with
      | none => none
      | some n =>
        (forLoop updateBoundaryForce n.toNat 0
            { force := Vector3r.setZero, torque := Vector3r.setZero, rbpo := rbpo1 }).map
          fun s =>
            m.setRigidBodyParticleObject i
              { s.rbpo with
                m_rigidBody := (s.rbpo.m_rigidBody.addForce s.force).addTorque s.torque }
    else some m

/-- The function `updateBoundaryForces()` of `main.cpp`. -/
def updateBoundaryForces (m : FluidModel α) : Option (FluidModel α) :=
  forLoop updateBoundaryForcesObject m.numberOfRigidBodyParticleObjects 0 m

end coupling

/-! ## Well-formed models and closed forms of the loops -/

section wellFormed
variable {α : Type}

/-- The parallel arrays of a rigid-body particle object have one length, the
number of its particles. -/
def RigidBodyParticleObject.ParallelArrays (p : RigidBodyParticleObject α) : Prop :=
  p.m_x0.length = p.m_x.length ∧ p.m_v.length = p.m_x.length ∧
    p.m_f.length = p.m_x.length ∧ p.m_boundaryPsi.length = p.m_x.length

/-- A rigid-body particle object is well-formed when its arrays are parallel
and its particle count fits the `int` counter of the loops over it. -/
def RigidBodyParticleObject.WF (p : RigidBodyParticleObject α) : Prop :=
  p.ParallelArrays ∧ p.m_x.length < 2 ^ 31

instance (p : RigidBodyParticleObject α) : Decidable p.WF := by
  unfold RigidBodyParticleObject.WF RigidBodyParticleObject.ParallelArrays
  infer_instance

/-- Particle object `i + 1` is a well-formed rigid-body particle object. -/
def FluidModel.RigidAt (m : FluidModel α) (i : Nat) : Prop :=
  match m.getRigidBodyParticleObject i with
  | some p => p.WF
  | none => False

instance (m : FluidModel α) (i : Nat) : Decidable (m.RigidAt i) := by
  unfold FluidModel.RigidAt
  split <;> infer_instance

/-- A model is well-formed when it holds the fluid object and every object
counted by `numberOfRigidBodyParticleObjects` is a well-formed rigid-body
particle object. -/
def FluidModel.WF (m : FluidModel α) : Prop :=
  0 < m.m_particleObjects.length ∧
    ∀ i, i < m.numberOfRigidBodyParticleObjects → m.RigidAt i

instance (m : FluidModel α) : Decidable m.WF := by
  unfold FluidModel.WF
  infer_instance

/-- The shape of the outer loops of the coupling: fetch object `i`, work on it
with `g`, and store the outcome in its place. -/
def onRigid (g : RigidBodyParticleObject α → Option (RigidBodyParticleObject α)) (i : Nat)
    (m : FluidModel α) : Option (FluidModel α) :=
  match m.getRigidBodyParticleObject i with
  | none => none
  | some p => (g p).map (m.setRigidBodyParticleObject i)

variable [CommRing α]

/-- The position `R * x0 + pos` written by the kinematic sync. -/
def syncPosition (rbo : RigidBodyObject α) (x0 : Vector3r α) : Vector3r α :=
  rbo.getRotation.mulVec x0 + rbo.getPosition

/-- The velocity `ω × (x - pos) + vel` written by the kinematic sync, with `x`
the position just written. -/
def syncVelocity (rbo : RigidBodyObject α) (x0 : Vector3r α) : Vector3r α :=
  rbo.getAngularVelocity.cross (syncPosition rbo x0 - rbo.getPosition) + rbo.getVelocity

/-- An object whose first `k` particles are synced with `rbo`. -/
def syncFirst (rbo : RigidBodyObject α) (k : Nat) (p : RigidBodyParticleObject α) :
    RigidBodyParticleObject α :=
  { p with
    m_x := (p.m_x0.take k).map (syncPosition rbo) ++ p.m_x.drop k
    m_v := (p.m_x0.take k).map (syncVelocity rbo) ++ p.m_v.drop k }

/-- What `updateBoundaryParticles` does with one object. -/
def syncObject (forceUpdate : Bool) (p : RigidBodyParticleObject α) :
    Option (RigidBodyParticleObject α) :=
  if p.m_rigidBody.isDynamic || forceUpdate then
    match toInt p.numberOfParticles with
    | none => none
    | some n => forLoop (updateBoundaryParticle p.m_rigidBody) n.toNat 0 p
  else some p

end wellFormed


section closedForms
variable {α : Type} [CommRing α]

/-- An object all of whose particles are synced with its body. -/
def syncAll (p : RigidBodyParticleObject α) : RigidBodyParticleObject α :=
  { p with
    m_x := p.m_x0.map (syncPosition p.m_rigidBody)
    m_v := p.m_x0.map (syncVelocity p.m_rigidBody) }

/-- The torque terms `(x[j] - pos) × f[j]` of an object, one per particle. -/
def torqueTerms (p : RigidBodyParticleObject α) : List (Vector3r α) :=
  List.zipWith (fun x f => (x - p.m_rigidBody.getPosition).cross f) p.m_x p.m_f

/-- State of the force loop after its first `k` iterations: the forces and
torque terms of the first `k` particles added up from zero, in order, and
their accumulators cleared. -/
def reduceFirst (k : Nat) (p : RigidBodyParticleObject α) : ForceLoopState α :=
  { force := (p.m_f.take k).foldl (· + ·) Vector3r.setZero
    torque := ((torqueTerms p).take k).foldl (· + ·) Vector3r.setZero
    rbpo := { p with m_f := List.replicate k Vector3r.setZero ++ p.m_f.drop k } }

/-- What `updateBoundaryForces` does with one object. -/
def reduceObject (p : RigidBodyParticleObject α) : Option (RigidBodyParticleObject α) :=
  if p.m_rigidBody.isDynamic then
    let rbpo1 := { p with m_rigidBody := p.m_rigidBody.updateTimeStepSize }
    match toInt rbpo1.numberOfParticles with
    | none => none
    | some n =>
      (forLoop updateBoundaryForce n.toNat 0
          { force := Vector3r.setZero, torque := Vector3r.setZero, rbpo := rbpo1 }).map
        fun s =>
          { s.rbpo with
            m_rigidBody := (s.rbpo.m_rigidBody.addForce s.force).addTorque s.torque }
  else some p

/-- A dynamic object after its force reduction: accumulators cleared, and the
body called with the sums. -/
def reduceAll (p : RigidBodyParticleObject α) : RigidBodyParticleObject α :=
  { p with
    m_f := List.replicate p.m_f.length Vector3r.setZero
    m_rigidBody :=
      ((p.m_rigidBody.updateTimeStepSize).addForce (Vector3r.sum p.m_f)).addTorque
        (Vector3r.sum (torqueTerms p)) }

end closedForms


section drivers
variable {α : Type} [CommRing α]

/-- Repeated kinematic sync, one call per flag, with no change of any body in
between. -/
def syncSteps : List Bool → FluidModel α → Option (FluidModel α)
  | [], m => some m
  | forceUpdate :: flags, m => (updateBoundaryParticles forceUpdate m).bind (syncSteps flags)

end drivers

/-! ## Concrete models -/

/-- A body rotated by a quarter turn about the z axis, placed at (1, 2, 3). -/
def exampleBody (isDynamic : Bool) : RigidBodyObject Int :=
  { isDynamic := isDynamic
    getRotation := ⟨⟨0, -1, 0⟩, ⟨1, 0, 0⟩, ⟨0, 0, 1⟩⟩
    getPosition := ⟨1, 2, 3⟩
    getVelocity := ⟨1, 0, 0⟩
    getAngularVelocity := ⟨0, 0, 1⟩
    calls := [] }

/-- Two particles that are out of date with respect to `exampleBody` and
carry forces. -/
def exampleObject (isDynamic : Bool) : RigidBodyParticleObject Int :=
  { m_x0 := [⟨1, 0, 0⟩, ⟨0, 1, 0⟩]
    m_x := [⟨0, 0, 0⟩, ⟨0, 0, 0⟩]
    m_v := [⟨0, 0, 0⟩, ⟨0, 0, 0⟩]
    m_rigidBody := exampleBody isDynamic
    m_boundaryPsi := [0, 0]
    m_f := [⟨1, 1, 1⟩, ⟨2, 0, 0⟩] }

/-- The fluid object, then one dynamic and one static rigid body. -/
def exampleModel : FluidModel Int :=
  ⟨[ParticleObjectPtr.base ⟨[⟨5, 5, 5⟩], [⟨5, 5, 5⟩], [⟨0, 0, 0⟩]⟩,
    ParticleObjectPtr.rigid (exampleObject true),
    ParticleObjectPtr.rigid (exampleObject false)]⟩

/-! ## Boundary sampling at start-up (`initBoundaryData` of `main.cpp`) -/

/-- Modelled from the spec: the boundary model descriptor
`SceneLoader::BoundaryData` (`SceneLoader.h` is not among the sources): mesh
file path, optional pre-sampled particle file path, per-axis scale and wall
flag. -/
structure BoundaryData (α : Type) where
  samplesFile : String
  meshFile : String
  scale : Vector3r α
  isWall : Bool

/-- Modelled from the spec: the part of `SceneLoader::Scene` the demo reads. -/
structure Scene (α : Type) where
  boundaryModels : List (BoundaryData α)
  particleRadius : α

/-- One call that `initBoundaryData` makes to a collaborator, with the
arguments handed over and, where the call reports one, its result. The mesh
handed to `sampleMesh` is named by the index of its body. -/
inductive InitCall (α : Type) where
  | readParticles (fileName : String) (scale : α) (found : Bool) : InitCall α
  | sampleMesh (body : Nat) (particleRadius : α) : InitCall α
  | makeDir (path : String) (result : Int) : InitCall α
  | writeParticles (fileName : String) (numParticles : Nat)
      (particles : List (Vector3r α)) (particleRadius : α) : InitCall α
  | addRigidBodyObject (rbo : RigidBodyObject α) (numBoundaryParticles : Nat)
      (boundaryParticles : List (Vector3r α)) : InitCall α
deriving DecidableEq

/-- The collaborators of `initBoundaryData` whose code is not among the
sources (`FileSystem`, `PartioReaderWriter`, `PoissonDiskSampling`,
`FluidModel::computeBoundaryPsi`), taken as parameters. What a call answers
may depend on every call made before it, which stands for the state of the
file system. `readParticles` and `sampleMesh` receive the current content of
the vector they write to and answer its new content. -/
structure InitExternals (α : Type) where
  getFilePath : String → String
  getFileName : String → String
  normalizePath : String → String
  readParticles : List (InitCall α) → String → α → List (Vector3r α) →
    Bool × List (Vector3r α)
  sampleMesh : List (InitCall α) → Nat → α → List (Vector3r α) → List (Vector3r α)
  makeDir : List (InitCall α) → String → Int
  boundaryPsi : FluidModel α → List (Vector3r α) → Nat → α

/-- State threaded through `initBoundaryData`: the fluid model and the calls
made so far. -/
structure InitState (α : Type) where
  model : FluidModel α
  calls : List (InitCall α)

section init

variable {α : Type} [Zero α] [One α] [Add α] [Sub α] [Mul α]

/-- Modelled from the spec: `FluidModel::addRigidBodyObject` (`FluidModel.cpp`
is not among the sources). Registration appends one rigid-body particle
object holding the first `numBoundaryParticles` points as rest and current
positions, with velocities and force accumulators of the same length set to
zero and one boundary weight per particle. -/
def FluidModel.addRigidBodyObject (m : FluidModel α) (rbo : RigidBodyObject α)
    (numBoundaryParticles : Nat) (boundaryParticles : List (Vector3r α)) (psi : Nat → α) :
    FluidModel α :=
  { m with m_particleObjects := m.m_particleObjects ++
      [ParticleObjectPtr.rigid
        { m_x0 := boundaryParticles.take numBoundaryParticles
          m_x := boundaryParticles.take numBoundaryParticles
          m_v := List.replicate (boundaryParticles.take numBoundaryParticles).length
            Vector3r.setZero
          m_rigidBody := rbo
          m_boundaryPsi :=
            (List.range (boundaryParticles.take numBoundaryParticles).length).map psi
          m_f := List.replicate (boundaryParticles.take numBoundaryParticles).length
            Vector3r.setZero }] }

/-- The directory `cachePath` of `initBoundaryData`. -/
def cachePath (ext : InitExternals α) (sceneFile : String) (bm : BoundaryData α) : String :=
  ext.getFilePath sceneFile ++ "/" ++ ext.getFilePath bm.meshFile ++ "/Cache"

/-- The cache file `particleFileName` of body `i` in `initBoundaryData`. -/
def cacheFileName (ext : InitExternals α) (sceneFile : String) (bm : BoundaryData α)
    (i : Nat) : String :=
  ext.normalizePath (cachePath ext sceneFile bm ++ "/" ++ ext.getFileName sceneFile ++ "_" ++
    ext.getFileName bm.meshFile ++ "_" ++ toString i ++ ".bgeo")

/-- The pre-sampled file `particleFileName` of a body in `initBoundaryData`. -/
def samplesFileName (ext : InitExternals α) (sceneFile : String) (bm : BoundaryData α) :
    String :=
  ext.getFilePath sceneFile ++ "/" ++ bm.samplesFile

/-- Lines 308 to 330 of `main.cpp`: try the cache, sample the mesh when the
cache is disabled or gives nothing, and save the sampling when caching is on
and the cache directory can be made. Answers the content of
`boundaryParticles` and the calls made. -/
def loadOrSample (ext : InitExternals α) (useCache : Bool) (particleRadius : α)
    (cachePath particleFileName : String) (i : Nat) (boundaryParticles : List (Vector3r α))
    (calls : List (InitCall α)) : List (Vector3r α) × List (InitCall α) :=
  let r : Bool × List (Vector3r α) × List (InitCall α) :=
    if useCache then
      let rd := ext.readParticles calls particleFileName 1 boundaryParticles
      (rd.1, rd.2, calls ++ [InitCall.readParticles particleFileName 1 rd.1])
    else (false, boundaryParticles, calls)
  if !useCache || !r.1 then
    let sampled := ext.sampleMesh r.2.2 i particleRadius r.2.1
    let calls2 := r.2.2 ++ [InitCall.sampleMesh i particleRadius]
    if useCache then
      let d := ext.makeDir calls2 cachePath
      let calls3 := calls2 ++ [InitCall.makeDir cachePath d]
      if d = 0 then
        (sampled, calls3 ++ [InitCall.writeParticles particleFileName
          (toUnsignedInt sampled.length) sampled particleRadius])
      else (sampled, calls3)
    else (sampled, calls2)
  else (r.2.1, r.2.2)

/-- The map `R.transpose() * (p - pos)` into the local frame of a body. -/
def toLocal (rb : RigidBodyObject α) (p : Vector3r α) : Vector3r α :=
  rb.getRotation.transpose.mulVec (p - rb.getPosition)

/-- Body of the loop "transform back to local coordinates", for point `j`. -/
def transformToLocalStep (rb : RigidBodyObject α) (j : Nat)
    (boundaryParticles : List (Vector3r α)) : Option (List (Vector3r α)) :=
  match boundaryParticles[j]? with
  | none => none
  | some p => some (boundaryParticles.set j (toLocal rb p))

/-- The loop "transform back to local coordinates". Its counter is an
`unsigned int` compared with a `size_t`: with `2 ^ 32` points or more the
counter wraps around before it reaches the bound and the loop does not end,
which gives none. -/
def transformToLocal (rb : RigidBodyObject α) (boundaryParticles : List (Vector3r α)) :
    Option (List (Vector3r α)) :=
  if boundaryParticles.length < UINT_SIZE then
    forLoop (transformToLocalStep rb) boundaryParticles.length 0 boundaryParticles
  else none

/-- Body of the loop of `initBoundaryData`, for body `i`. -/
def initBoundaryDataBody (ext : InitExternals α) (sceneFile : String) (scene : Scene α)
    (useCache : Bool) (rigidBodies : List (RigidBodyObject α)) (i : Nat) (s : InitState α) :
    Option (InitState α) :=
  match scene.boundaryModels[i]? with
  | none => none
  | some bm =>
    let r1 : List (Vector3r α) × List (InitCall α) :=
      if bm.samplesFile ≠ "" then
        let rd := ext.readParticles s.calls (samplesFileName ext sceneFile bm) bm.scale.x []
        (rd.2, s.calls ++
          [InitCall.readParticles (samplesFileName ext sceneFile bm) bm.scale.x rd.1])
      else ([], s.calls)
    match rigidBodies[i]? with
    | none => none
    | some rb =>
      let r2 : Option (List (Vector3r α) × List (InitCall α)) :=
        if bm.samplesFile = "" then
          let r := loadOrSample ext useCache scene.particleRadius (cachePath ext sceneFile bm)
            (cacheFileName ext sceneFile bm i) i r1.1 r1.2
          (transformToLocal rb r.1).map fun bp => (bp, r.2)
        else some r1
      match r2 with
      | none => none
      | some r =>
        some
          { model := s.model.addRigidBodyObject rb (toUnsignedInt r.1.length) r.1
              (ext.boundaryPsi s.model r.1)
            calls := r.2 ++ [InitCall.addRigidBodyObject rb (toUnsignedInt r.1.length) r.1] }

/-- The function `initBoundaryData()` of `main.cpp`: every boundary model in
turn, then a forced kinematic sync. The counter of the loop is an
`unsigned int` compared with a `size_t`, as in `transformToLocal`. -/
def initBoundaryData (ext : InitExternals α) (sceneFile : String) (scene : Scene α)
    (useCache : Bool) (rigidBodies : List (RigidBodyObject α)) (m : FluidModel α) :
    Option (InitState α) :=
  if scene.boundaryModels.length < UINT_SIZE then
    match forLoop (initBoundaryDataBody ext sceneFile scene useCache rigidBodies)
        scene.boundaryModels.length 0 { model := m, calls := [] } with
    | none => none
    | some s => (updateBoundaryParticles true s.model).map fun m' => { s with model := m' }
  else none

end init

/-! ## The step loop (`timeStep` of `main.cpp`) -/

/-- Modelled from the spec: what the frame export reads of the geometry of
one PBD rigid body (the PBD headers are not among the sources): the number of
faces as an `unsigned int`, the vertex indices of the faces, and the vertex
positions and vertex normals. -/
structure RigidBodyGeometry (α : Type) where
  numFaces : Nat
  faces : List Nat
  vertices : List (Vector3r α)
  vertexNormals : List (Vector3r α)
deriving DecidableEq

/-- One entry pushed to the buffer of the mesh writer: an `unsigned int`
(`push_back`) or an array of vectors with the flag it was pushed with
(`push_back_to_float_array`). -/
inductive BufferItem (α : Type) where
  | uint (value : Nat) : BufferItem α
  | floatArray (data : List (Vector3r α)) (flag : Bool) : BufferItem α
deriving DecidableEq

/-- The phases of one pass of the step loop, as recorded by the model. -/
inductive Phase where
  | simulationStep : Phase
  | updateBoundaryForces : Phase
  | pbdTimeStep : Phase
  | updateBoundaryParticles (forceUpdate : Bool) : Phase
  | writeFrameFluidData (savedFluidFrame : Int) : Phase
  | flushBufferAsync (frame : Int) : Phase
deriving DecidableEq

/-- The collaborators of `timeStep` whose code is not among the sources,
taken as parameters over a state `W` of their own: the pressure solver
(`simulation->step()`), the rigid-body integrator (`pbdWrapper.timeStep()`),
`FluidModel::writeFrameFluidData`, the clock of the `TimeManager` and the
rigid bodies of the PBD simulation model. The solver and the integrator may
change the fluid model, which in this embedding holds the adapters of the
bodies. -/
structure StepExternals (α W : Type) where
  simulationStep : FluidModel α → W → FluidModel α × W
  pbdTimeStep : FluidModel α → W → FluidModel α × W
  writeFrameFluidData : FluidModel α → α → W → Int × W
  getTime : W → α
  getRigidBodies : W → List (RigidBodyGeometry α)

/-- State of the demo: the fluid model, the state of the collaborators, the
settings of `DemoBase` read by `timeStep`, the buffer of the mesh writer with
the buffers handed to `flush_buffer_async`, and the phases run so far. -/
structure DemoState (α W : Type) where
  model : FluidModel α
  world : W
  pause : Bool
  pauseAt : α
  numberOfStepsPerRenderUpdate : Nat
  meshBuffer : List (BufferItem α)
  flushed : List (Int × List (BufferItem α))
  phases : List Phase

section step

variable {α W : Type}

/-- Innermost body of the frame export, for corner `j` of face `i`: the
vertex index `faces[i * 3 + j]` (an `unsigned int` expression), then the
position and the normal of that vertex are appended. -/
def exportFaceVertex (g : RigidBodyGeometry α) (i j : Nat)
    (acc : List (Vector3r α) × List (Vector3r α)) :
    Option (List (Vector3r α) × List (Vector3r α)) :=
  match g.faces[toUnsignedInt (i * 3 + j)]? with
  | none => none
  | some v_index =>
    match g.vertices[v_index]?, g.vertexNormals[v_index]? with
    | some v, some n => some (acc.1 ++ [v], acc.2 ++ [n])
    | _, _ => none

/-- The block of one body in the frame export: the count
`static_cast<unsigned int>(vertices.size())`, the positions and the normals. -/
def exportBody (g : RigidBodyGeometry α) : Option (List (BufferItem α)) :=
  (forLoop (fun i acc => forLoop (exportFaceVertex g i) 3 0 acc) g.numFaces 0 ([], [])).map
    fun r =>
      [BufferItem.uint (toUnsignedInt r.1.length), BufferItem.floatArray r.1 false,
        BufferItem.floatArray r.2 false]

/-- Body of the loop over the rigid bodies in the frame export, for body `i`. -/
def exportMeshesStep (scene : Scene α) (rb : List (RigidBodyGeometry α)) (i : Nat)
    (buffer : List (BufferItem α)) : Option (List (BufferItem α)) :=
  match scene.boundaryModels[i]?, rb[i]? with
  | some bm, some g =>
    if !bm.isWall then (exportBody g).map fun block => buffer ++ block else some buffer
  | _, _ => none

/-- The buffer built by the frame export: after `reset_buffer`, the header
`static_cast<unsigned int>(rb.size() - 1)`, then the blocks. -/
def exportMeshes (scene : Scene α) (rb : List (RigidBodyGeometry α)) :
    Option (List (BufferItem α)) :=
  forLoop (exportMeshesStep scene rb) rb.length 0
    [BufferItem.uint (toUnsignedInt (sizeSubOne rb.length))]

variable [Zero α] [Add α] [Sub α] [Mul α] [LT α] [DecidableRel (fun a b : α => a < b)]

/-- The frame export at the end of the body of the step loop, entered with the
value `savedFluidFrame` returned by `writeFrameFluidData`. -/
def exportFrame (ext : StepExternals α W) (scene : Scene α) (savedFluidFrame : Int)
    (s : DemoState α W) : Option (DemoState α W) :=
  if savedFluidFrame > 0 then
    match exportMeshes scene (ext.getRigidBodies s.world) with
    | none => none
    | some buffer =>
      some
        { s with
          meshBuffer := buffer
          flushed := s.flushed ++ [(savedFluidFrame, buffer)]
          phases := s.phases ++ [Phase.flushBufferAsync savedFluidFrame] }
  else some s

/-- Body of the step loop of `timeStep`. -/
def timeStepIteration (ext : StepExternals α W) (scene : Scene α) (s : DemoState α W) :
    Option (DemoState α W) :=
  let r1 := ext.simulationStep s.model s.world
  match updateBoundaryForces r1.1 with
  | none => none
  | some m2 =>
    let r3 := ext.pbdTimeStep m2 r1.2
    match updateBoundaryParticles false r3.1 with
    | none => none
    | some m4 =>
      let r5 := ext.writeFrameFluidData m4 (ext.getTime r3.2) r3.2
      exportFrame ext scene r5.1
        { s with
          model := m4
          world := r5.2
          phases := s.phases ++
            [Phase.simulationStep, Phase.updateBoundaryForces, Phase.pbdTimeStep,
              Phase.updateBoundaryParticles false, Phase.writeFrameFluidData r5.1] }

/-- The first statement of `timeStep`: the demo is paused once the clock has
passed a positive `pauseAt`. -/
def applyPauseAt (ext : StepExternals α W) (s : DemoState α W) : DemoState α W :=
  if 0 < s.pauseAt ∧ s.pauseAt < ext.getTime s.world then { s with pause := true } else s

/-- The function `timeStep()` of `main.cpp`. -/
def timeStep (ext : StepExternals α W) (scene : Scene α) (s : DemoState α W) :
    Option (DemoState α W) :=
  if (applyPauseAt ext s).pause then some (applyPauseAt ext s)
  else
    forLoop (fun _ => timeStepIteration ext scene)
      (applyPauseAt ext s).numberOfStepsPerRenderUpdate 0 (applyPauseAt ext s)

end step

/-! ## Concrete collaborators and scenes -/

/-- Collaborators that leave everything as it is and save no frame. -/
def idleExternals : StepExternals Int Unit :=
  { simulationStep := fun m w => (m, w)
    pbdTimeStep := fun m w => (m, w)
    writeFrameFluidData := fun _ _ w => (0, w)
    getTime := fun _ => 0
    getRigidBodies := fun _ => [] }

/-- A scene of two boundary models without pre-sampled files. -/
def exampleScene : Scene Int :=
  { boundaryModels :=
      [{ samplesFile := "", meshFile := "a.obj", scale := ⟨1, 1, 1⟩, isWall := false },
        { samplesFile := "", meshFile := "b.obj", scale := ⟨1, 1, 1⟩, isWall := true }]
    particleRadius := 1 }

/-- A running demo on `exampleModel` that makes two steps per render update. -/
def exampleDemo : DemoState Int Unit :=
  { model := exampleModel
    world := ()
    pause := false
    pauseAt := 0
    numberOfStepsPerRenderUpdate := 2
    meshBuffer := []
    flushed := []
    phases := [] }

/-- An integrator step for one body: the position moves by every force handed
to the body. -/
def exampleAdvance (rb : RigidBodyObject Int) : RigidBodyObject Int :=
  { rb with
    getPosition := rb.calls.foldl
      (fun p c =>
        match c with
        | AdapterCall.addForce f => p + f
        | _ => p)
      rb.getPosition }

/-- Collaborators whose integrator moves every body by the forces handed to
it (`exampleAdvance`); the solver leaves everything as it is and no frame is
saved. -/
def movingExternals : StepExternals Int Unit :=
  { simulationStep := fun m w => (m, w)
    pbdTimeStep := fun m w =>
      (⟨m.m_particleObjects.map fun o =>
          match o with
          | ParticleObjectPtr.rigid p =>
            ParticleObjectPtr.rigid { p with m_rigidBody := exampleAdvance p.m_rigidBody }
          | ParticleObjectPtr.base p => ParticleObjectPtr.base p⟩, w)
    writeFrameFluidData := fun _ _ w => (0, w)
    getTime := fun _ => 0
    getRigidBodies := fun _ => [] }

section stated
variable {α W : Type} [Zero α] [Add α] [Sub α] [Mul α]

/-- The order of the phases as the specification states it (solver force
computation, then boundary kinematic sync, then boundary force reduction),
followed by the integrator, which works on the forces reduced: the fluid model
that such a pass leaves. A second definition, written from the words of the
specification, to be compared with `timeStepIteration`. -/
def stepAsStated (ext : StepExternals α W) (m : FluidModel α) (w : W) :
    Option (FluidModel α) :=
  (updateBoundaryParticles false (ext.simulationStep m w).1).bind fun m2 =>
    (updateBoundaryForces m2).map fun m3 => (ext.pbdTimeStep m3 (ext.simulationStep m w).2).1

end stated

/-- The reader and the sampler answer fewer than `2 ^ 32` points, so that
every loop over the points ends. -/
def InitExternals.Bounded {α : Type} (ext : InitExternals α) : Prop :=
  (∀ calls fileName scale, (ext.readParticles calls fileName scale []).2.length < UINT_SIZE) ∧
    ∀ calls i r cur, cur.length < UINT_SIZE → (ext.sampleMesh calls i r cur).length < UINT_SIZE

/-- Collaborators for a first run: no cache file is found, the sampler
answers two points, and the cache directory cannot be made. -/
def exampleInitExternals : InitExternals Int :=
  { getFilePath := fun _ => "scenes"
    getFileName := fun f => f
    normalizePath := fun f => f
    readParticles := fun _ _ _ cur => (false, cur)
    sampleMesh := fun _ _ _ _ => [⟨1, 3, 3⟩, ⟨0, 2, 3⟩]
    makeDir := fun _ _ => -1
    boundaryPsi := fun _ _ _ => 1 }

/-! ## Data flow of one step -/

section flow

variable {α W : Type} [LinearOrderedCommRing α]

/-- One pass of the step loop takes the demo from `a` to `b` with this data
flow: the solver works on the model and collaborators of `a`; the force
reduction works on the model the solver left and gives `m2`; the integrator
works on `m2`; the kinematic sync, not forced, works on the model the
integrator left and gives `m4`, the model of `b`; the phases recorded from `a`
to `b` are these four, in this order, then the frame writer and at most one
flush of the mesh buffer. -/
def StepFlow (ext : StepExternals α W) (a b : DemoState α W) : Prop :=
  ∃ m2 m4 r rest,
    updateBoundaryForces (ext.simulationStep a.model a.world).1 = some m2 ∧
    updateBoundaryParticles false
      (ext.pbdTimeStep m2 (ext.simulationStep a.model a.world).2).1 = some m4 ∧
    b.model = m4 ∧
    b.phases = a.phases ++
      ([Phase.simulationStep, Phase.updateBoundaryForces, Phase.pbdTimeStep,
        Phase.updateBoundaryParticles false, Phase.writeFrameFluidData r] ++ rest) ∧
    (rest = [] ∨ rest = [Phase.flushBufferAsync r])

/-- The demo goes from `a` to `b` in `n` passes of the step loop, each with the
data flow `StepFlow`, the model left by one pass being the model the next
pass starts from. -/
def StepsFlow (ext : StepExternals α W) : Nat → DemoState α W → DemoState α W → Prop
  | 0, a, b => a = b
  | n + 1, a, b => ∃ c, StepFlow ext a c ∧ StepsFlow ext n c b

end flow

/-! ## Layout of the frame export -/

section exportLayout

variable {α : Type}

/-- The mesh of a body can be exported: three times its number of faces is an
`unsigned int`, `faces` holds three vertex indices per face, and each of them
is an index into the vertex positions and the vertex normals. -/
def RigidBodyGeometry.WF (g : RigidBodyGeometry α) : Prop :=
  3 * g.numFaces < UINT_SIZE ∧ 3 * g.numFaces ≤ g.faces.length ∧
    ∀ v ∈ g.faces.take (3 * g.numFaces), v < g.vertices.length ∧ v < g.vertexNormals.length

instance (g : RigidBodyGeometry α) : Decidable g.WF := by
  unfold RigidBodyGeometry.WF
  infer_instance

end exportLayout

section roundTrip

variable {α : Type}

/-- The entries of a `Matrix3r` as a matrix over `Fin 3`. -/
def Matrix3r.toMatrix (a : Matrix3r α) : Matrix (Fin 3) (Fin 3) α :=
  Matrix.of ![![a.r0.x, a.r0.y, a.r0.z], ![a.r1.x, a.r1.y, a.r1.z], ![a.r2.x, a.r2.y, a.r2.z]]

/-- The reader and the sampler answer fewer than `2 ^ 31` points, so that the
particle count of every object registered fits the `int` counter of the
loops of the coupling. -/
def InitExternals.BoundedInt (ext : InitExternals α) : Prop :=
  (∀ calls fileName scale, (ext.readParticles calls fileName scale []).2.length < 2 ^ 31) ∧
    ∀ calls i r cur, (ext.sampleMesh calls i r cur).length < 2 ^ 31

variable [Zero α] [One α] [Add α] [Sub α] [Mul α]

/-- The world-space points that the cache or the sampler produces for body `i`
when `calls` are the calls made before. -/
def producedPoints (ext : InitExternals α) (sceneFile : String) (scene : Scene α)
    (useCache : Bool) (bm : BoundaryData α) (i : Nat) (calls : List (InitCall α)) :
    List (Vector3r α) :=
  (loadOrSample ext useCache scene.particleRadius (cachePath ext sceneFile bm)
    (cacheFileName ext sceneFile bm i) i [] calls).1

/-- The points handed to `addRigidBodyObject` for body `i`: the points of the
pre-sampled file as read, or else the points produced by the cache or the
sampler, taken to the local frame of the body. -/
def registeredPoints (ext : InitExternals α) (sceneFile : String) (scene : Scene α)
    (useCache : Bool) (bm : BoundaryData α) (rb : RigidBodyObject α) (i : Nat)
    (calls : List (InitCall α)) : List (Vector3r α) :=
  if bm.samplesFile = "" then
    (producedPoints ext sceneFile scene useCache bm i calls).map (toLocal rb)
  else (ext.readParticles calls (samplesFileName ext sceneFile bm) bm.scale.x []).2

end roundTrip

/-! ## Floating-point scalars -/

/-- An IEEE 754 binary format: `prec` binary digits of significand, the
leading one included, and the largest exponent `emax`. -/
structure FloatFormat where
  prec : Nat
  emax : Nat
deriving DecidableEq

/-- The format of `double`. -/
def binary64 : FloatFormat := ⟨53, 1023⟩

/-- The format of `float`. -/
def binary32 : FloatFormat := ⟨24, 127⟩

/-- The smallest positive value of a format is `2 ^ (-scale)`; every finite
value is a whole multiple of it. -/
def FloatFormat.scale (fmt : FloatFormat) : Nat := fmt.emax + fmt.prec - 2

/-- Modelled from the spec: the scalar type `Real` (`Common.h`, which makes it
`double` or `float`, is not among the sources) as an IEEE 754 binary
floating-point number of format `fmt`. A finite value is
`units * 2 ^ (-scale)`; the two zeros, which compare equal, are one value;
the infinities and the NaNs are one value `nonFinite`. -/
inductive FloatReal (fmt : FloatFormat) where
  | finite (units : Int) : FloatReal fmt
  | nonFinite : FloatReal fmt
deriving DecidableEq

/-- The power `2 ^ k`, as a shift. -/
def pow2 (k : Nat) : Nat := 1 <<< k

/-- Number of binary digits of `n` when `n ≤ fuel`, one digit at a time: one
more than the number of binary digits of `n / 2`, and none for zero. -/
def binaryDigits : Nat → Nat → Nat
  | 0, _ => 0
  | fuel + 1, n => if n = 0 then 0 else binaryDigits fuel (n / 2) + 1

/-- Number of binary digits of `n` when `n < 2 ^ (2 ^ levels)`, by bisection:
a number that has digits above the lowest `2 ^ l` has `2 ^ l` digits more
than what is left of it without these. -/
def binaryDigitsBelow : Nat → Nat → Nat
  | 0, n => if n = 0 then 0 else 1
  | l + 1, n =>
    if n >>> pow2 l = 0 then binaryDigitsBelow l n
    else pow2 l + binaryDigitsBelow l (n >>> pow2 l)

namespace FloatReal

variable {fmt : FloatFormat}

/-- Rounding to nearest, ties to even (the default rounding of IEEE 754), of
the exact value `n * 2 ^ (-(scale + k))`. A magnitude of `2 ^ (emax + 1)` or
more overflows, before or after rounding. Otherwise the magnitude `a` is below
`2 ^ bound`, its digits are counted, and it keeps its leading `prec` binary
digits, or fewer where the smallest positive value is coarser. -/
def round (fmt : FloatFormat) (k : Nat) (n : Int) : FloatReal fmt :=
  let a := n.natAbs
  let bound := fmt.emax + 1 + fmt.scale + k
  if pow2 bound ≤ a then nonFinite
  else
    let drop := max (binaryDigitsBelow (binaryDigits bound bound) a - fmt.prec) k
    let q := a >>> drop
    let r := a % pow2 drop
    let up := decide (pow2 drop < 2 * r) || (decide (2 * r = pow2 drop) && decide (q % 2 = 1))
    let units := (if up then q + 1 else q) * pow2 (drop - k)
    if units < pow2 (fmt.emax + 1 + fmt.scale) then
      finite (if n < 0 then -(units : Int) else (units : Int))
    else nonFinite

/-- The value of an integer constant. -/
def ofInt (fmt : FloatFormat) (z : Int) : FloatReal fmt :=
  round fmt 0 (z * (pow2 fmt.scale : Int))

/-- Floating-point addition: the exact sum, rounded. -/
def add : FloatReal fmt → FloatReal fmt → FloatReal fmt
  | finite a, finite b => round fmt 0 (a + b)
  | _, _ => nonFinite

/-- Floating-point subtraction: the exact difference, rounded. -/
def sub : FloatReal fmt → FloatReal fmt → FloatReal fmt
  | finite a, finite b => round fmt 0 (a - b)
  | _, _ => nonFinite

/-- Floating-point multiplication: the exact product, rounded. -/
def mul : FloatReal fmt → FloatReal fmt → FloatReal fmt
  | finite a, finite b => round fmt fmt.scale (a * b)
  | _, _ => nonFinite

instance : Zero (FloatReal fmt) := ⟨finite 0⟩
instance : One (FloatReal fmt) := ⟨ofInt fmt 1⟩
instance : Add (FloatReal fmt) := ⟨add⟩
instance : Sub (FloatReal fmt) := ⟨sub⟩
instance : Mul (FloatReal fmt) := ⟨mul⟩

end FloatReal

/-- A body at rest far from the origin: rotation the identity, position
`(2 ^ 70, 0, 0)`. -/
def farBody (fmt : FloatFormat) : RigidBodyObject (FloatReal fmt) :=
  { isDynamic := true
    getRotation := Matrix3r.identity
    getPosition := ⟨FloatReal.ofInt fmt (2 ^ 70), 0, 0⟩
    getVelocity := ⟨0, 0, 0⟩
    getAngularVelocity := ⟨0, 0, 0⟩
    calls := [] }

/-- A scene of one boundary model without pre-sampled file. -/
def farScene (fmt : FloatFormat) : Scene (FloatReal fmt) :=
  { boundaryModels :=
      [{ samplesFile := "", meshFile := "a.obj", scale := ⟨1, 1, 1⟩, isWall := false }]
    particleRadius := 1 }

/-- Collaborators whose sampler answers the one point `(1, 0, 0)`. -/
def farInitExternals (fmt : FloatFormat) : InitExternals (FloatReal fmt) :=
  { getFilePath := fun _ => "scenes"
    getFileName := fun f => f
    normalizePath := fun f => f
    readParticles := fun _ _ _ cur => (false, cur)
    sampleMesh := fun _ _ _ _ => [⟨1, 0, 0⟩]
    makeDir := fun _ _ => -1
    boundaryPsi := fun _ _ _ => 1 }

section lemmas
variable {α : Type}

theorem set_prefix_step {β : Type} (A l : List β) (k : Nat) (v : β) (hA : A.length = k)
    (hk : k < l.length) : (A ++ l.drop k).set k v = (A ++ [v]) ++ l.drop (k + 1) := by
  subst hA
  rw [List.set_append_right _ _ (le_refl _), Nat.sub_self, List.drop_eq_getElem_cons hk,
    List.set_cons_zero, List.append_assoc, List.singleton_append]

theorem set_eq_self_of_getElem? {β : Type} (l : List β) (k : Nat) (v : β)
    (h : l[k]? = some v) : l.set k v = l := by
  apply List.ext_getElem?
  intro n
  rw [List.getElem?_set]
  by_cases hkn : k = n
  · subst hkn
    have hlt : k < l.length := by
      by_contra hc
      rw [List.getElem?_eq_none (by omega)] at h
      exact absurd h (by simp)
    simp [hlt, h]
  · simp [hkn]

theorem forLoop_succ {σ : Type} (body : Nat → σ → Option σ) (n i : Nat) (s : σ) :
    forLoop body (n + 1) i s = (body i s).bind (forLoop body n (i + 1)) := rfl

theorem forLoop_zero {σ : Type} (body : Nat → σ → Option σ) (i : Nat) (s : σ) :
    forLoop body 0 i s = some s := rfl

theorem numberOfRigidBodyParticleObjects_eq (m : FluidModel α)
    (h : 0 < m.m_particleObjects.length) :
    m.numberOfRigidBodyParticleObjects = (m.m_particleObjects.length - 1) % 2 ^ 32 := by
  unfold FluidModel.numberOfRigidBodyParticleObjects toUnsignedInt sizeSubOne UINT_SIZE
    SIZE_T_SIZE
  omega

theorem rigid_index (m : FluidModel α) (h : 0 < m.m_particleObjects.length) (i : Nat)
    (hi : i < m.numberOfRigidBodyParticleObjects) :
    toUnsignedInt (i + 1) = i + 1 ∧ i + 1 < m.m_particleObjects.length := by
  rw [numberOfRigidBodyParticleObjects_eq m h] at hi
  unfold toUnsignedInt UINT_SIZE
  omega

theorem numberOfRigidBodyParticleObjects_set (m : FluidModel α) (i : Nat)
    (p : RigidBodyParticleObject α) :
    (m.setRigidBodyParticleObject i p).numberOfRigidBodyParticleObjects =
      m.numberOfRigidBodyParticleObjects := by
  simp [FluidModel.numberOfRigidBodyParticleObjects, FluidModel.setRigidBodyParticleObject]

theorem length_setRigidBodyParticleObject (m : FluidModel α) (i : Nat)
    (p : RigidBodyParticleObject α) :
    (m.setRigidBodyParticleObject i p).m_particleObjects.length =
      m.m_particleObjects.length := by
  simp [FluidModel.setRigidBodyParticleObject]

theorem get_set_same (m : FluidModel α) (i : Nat) (p : RigidBodyParticleObject α)
    (h : toUnsignedInt (i + 1) < m.m_particleObjects.length) :
    (m.setRigidBodyParticleObject i p).getRigidBodyParticleObject i = some p := by
  simp [FluidModel.getRigidBodyParticleObject, FluidModel.setRigidBodyParticleObject,
    List.getElem?_set, h]

theorem get_set_other (m : FluidModel α) (i j : Nat) (p : RigidBodyParticleObject α)
    (h : toUnsignedInt (i + 1) ≠ toUnsignedInt (j + 1)) :
    (m.setRigidBodyParticleObject i p).getRigidBodyParticleObject j =
      m.getRigidBodyParticleObject j := by
  simp [FluidModel.getRigidBodyParticleObject, FluidModel.setRigidBodyParticleObject,
    List.getElem?_set, h]

theorem set_get_self (m : FluidModel α) (i : Nat) (p : RigidBodyParticleObject α)
    (h : m.getRigidBodyParticleObject i = some p) :
    m.setRigidBodyParticleObject i p = m := by
  unfold FluidModel.getRigidBodyParticleObject at h
  have h2 : m.m_particleObjects[toUnsignedInt (i + 1)]? = some (ParticleObjectPtr.rigid p) := by
    split at h
    · next q hq => simp at h; rw [hq, h]
    · simp at h
  unfold FluidModel.setRigidBodyParticleObject
  rw [set_eq_self_of_getElem? _ _ _ h2]

/-- The outer loop -/
theorem forLoop_onRigid (g : RigidBodyParticleObject α → Option (RigidBodyParticleObject α))
    (n : Nat) : ∀ (i : Nat) (m : FluidModel α), 0 < m.m_particleObjects.length →
      i + n ≤ m.numberOfRigidBodyParticleObjects →
      (∀ j, i ≤ j → j < i + n →
        ∃ p p', m.getRigidBodyParticleObject j = some p ∧ g p = some p') →
      ∃ m', forLoop (onRigid g) n i m = some m' ∧
        m'.m_particleObjects.length = m.m_particleObjects.length ∧
        (∀ j, i ≤ j → j < i + n → ∀ p, m.getRigidBodyParticleObject j = some p →
          ∃ p', g p = some p' ∧ m'.getRigidBodyParticleObject j = some p') ∧
        (∀ j, j < m.numberOfRigidBodyParticleObjects → (j < i ∨ i + n ≤ j) →
          m'.getRigidBodyParticleObject j = m.getRigidBodyParticleObject j) := by
  induction n with
  | zero =>
    intro i m _ _ _
    exact ⟨m, rfl, rfl, fun j h1 h2 => absurd h2 (by omega), fun _ _ _ => rfl⟩
  | succ n ih =>
    intro i m hlen hn hall
    obtain ⟨p, p', hp, hg⟩ := hall i (le_refl _) (by omega)
    have hidx := rigid_index m hlen i (by omega)
    have hstep : onRigid g i m = some (m.setRigidBodyParticleObject i p') := by
      simp [onRigid, hp, hg]
    have hother : ∀ j, j < m.numberOfRigidBodyParticleObjects → j ≠ i →
        (m.setRigidBodyParticleObject i p').getRigidBodyParticleObject j =
          m.getRigidBodyParticleObject j := by
      intro j hj hji
      apply get_set_other
      have hjdx := rigid_index m hlen j hj
      rw [hidx.1, hjdx.1]
      omega
    obtain ⟨m', hm', hlen', hin, hout⟩ := ih (i + 1) (m.setRigidBodyParticleObject i p')
      (by rw [length_setRigidBodyParticleObject]; exact hlen)
      (by rw [numberOfRigidBodyParticleObjects_set]; omega)
      (by
        intro j hj1 hj2
        rw [hother j (by omega) (by omega)]
        exact hall j (by omega) (by omega))
    refine ⟨m', ?_, ?_, ?_, ?_⟩
    · rw [forLoop_succ, hstep]; exact hm'
    · rw [hlen', length_setRigidBodyParticleObject]
    · intro j hj1 hj2 q hq
      by_cases hji : j = i
      · subst hji
        rw [hp] at hq
        cases hq
        refine ⟨p', hg, ?_⟩
        rw [hout j (by rw [numberOfRigidBodyParticleObjects_set]; omega) (Or.inl (by omega))]
        exact get_set_same m j p' (by rw [hidx.1]; exact hidx.2)
      · exact hin j (by omega) (by omega) q (by rw [hother j (by omega) hji]; exact hq)
    · intro j hj hor
      rw [hout j (by rw [numberOfRigidBodyParticleObjects_set]; exact hj) (by omega)]
      exact hother j hj (by omega)

theorem toInt_numberOfParticles (p : RigidBodyParticleObject α) (h : p.m_x.length < 2 ^ 31) :
    toInt p.numberOfParticles = some (p.m_x.length : Int) := by
  unfold toInt ParticleObject.numberOfParticles toUnsignedInt UINT_SIZE
  have h1 : p.m_x.length % 2 ^ 32 = p.m_x.length := Nat.mod_eq_of_lt (by omega)
  rw [h1, if_pos h]

theorem rigid_of_WF (m : FluidModel α) (hm : m.WF) (j : Nat)
    (hj : j < m.numberOfRigidBodyParticleObjects) :
    ∃ p, m.getRigidBodyParticleObject j = some p ∧ p.WF := by
  have h := hm.2 j hj
  unfold FluidModel.RigidAt at h
  cases hg : m.getRigidBodyParticleObject j with
  | none => rw [hg] at h; exact absurd h id
  | some p => rw [hg] at h; exact ⟨p, rfl, h⟩

theorem forLoop_onRigid_id (g : RigidBodyParticleObject α → Option (RigidBodyParticleObject α))
    (m : FluidModel α) (n : Nat) : ∀ i,
      (∀ j, i ≤ j → j < i + n → ∃ p, m.getRigidBodyParticleObject j = some p ∧ g p = some p) →
      forLoop (onRigid g) n i m = some m := by
  induction n with
  | zero => intro i _; rfl
  | succ n ih =>
    intro i hall
    obtain ⟨p, hp, hg⟩ := hall i (le_refl _) (by omega)
    have hstep : onRigid g i m = some m := by
      simp [onRigid, hp, hg, set_get_self m i p hp]
    rw [forLoop_succ, hstep]
    exact ih (i + 1) (fun j h1 h2 => hall j (by omega) (by omega))

theorem numberOfRigidBodyParticleObjects_congr (m m' : FluidModel α)
    (h : m'.m_particleObjects.length = m.m_particleObjects.length) :
    m'.numberOfRigidBodyParticleObjects = m.numberOfRigidBodyParticleObjects := by
  unfold FluidModel.numberOfRigidBodyParticleObjects
  rw [h]

end lemmas

section lemmas2
variable {α : Type} [CommRing α]

@[simp]
theorem Vector3r.add_x (a b : Vector3r α) : (a + b).x = a.x + b.x := rfl
@[simp]
theorem Vector3r.add_y (a b : Vector3r α) : (a + b).y = a.y + b.y := rfl
@[simp]
theorem Vector3r.add_z (a b : Vector3r α) : (a + b).z = a.z + b.z := rfl
@[simp]
theorem Vector3r.sub_x (a b : Vector3r α) : (a - b).x = a.x - b.x := rfl
@[simp]
theorem Vector3r.sub_y (a b : Vector3r α) : (a - b).y = a.y - b.y := rfl
@[simp]
theorem Vector3r.sub_z (a b : Vector3r α) : (a - b).z = a.z - b.z := rfl
@[simp]
theorem Vector3r.zero_x : (0 : Vector3r α).x = 0 := rfl
@[simp]
theorem Vector3r.zero_y : (0 : Vector3r α).y = 0 := rfl
@[simp]
theorem Vector3r.zero_z : (0 : Vector3r α).z = 0 := rfl

theorem Vector3r.add_sub_cancel_right (a b : Vector3r α) : a + b - b = a := by
  ext <;> simp

theorem syncFirst_zero (rbo : RigidBodyObject α) (p : RigidBodyParticleObject α) :
    syncFirst rbo 0 p = p := by
  simp [syncFirst]

theorem updateBoundaryParticle_syncFirst (rbo : RigidBodyObject α)
    (p : RigidBodyParticleObject α) (hp : p.ParallelArrays) (k : Nat) (hk : k < p.m_x.length) :
    updateBoundaryParticle rbo k (syncFirst rbo k p) = some (syncFirst rbo (k + 1) p) := by
  obtain ⟨h0, hv, _, _⟩ := hp
  have hk0 : k < p.m_x0.length := by omega
  have hkv : k < p.m_v.length := by omega
  have hlenA : ∀ f : Vector3r α → Vector3r α, ((p.m_x0.take k).map f).length = k := by
    intro f; simp; omega
  have htake : ∀ f : Vector3r α → Vector3r α,
      (p.m_x0.take (k + 1)).map f = (p.m_x0.take k).map f ++ [f p.m_x0[k]] := by
    intro f
    rw [List.take_succ, List.getElem?_eq_getElem hk0, List.map_append]
    rfl
  unfold updateBoundaryParticle
  have e0 : (syncFirst rbo k p).m_x0[k]? = some p.m_x0[k] := by
    simp [syncFirst, List.getElem?_eq_getElem hk0]
  have ex : (syncFirst rbo k p).m_x.length = p.m_x.length := by
    simp [syncFirst]; omega
  have ev : (syncFirst rbo k p).m_v.length = p.m_v.length := by
    simp [syncFirst]; omega
  have esx : (syncFirst rbo k p).m_x.set k (rbo.getRotation.mulVec p.m_x0[k] + rbo.getPosition)
      = (syncFirst rbo (k + 1) p).m_x := by
    show ((p.m_x0.take k).map (syncPosition rbo) ++ p.m_x.drop k).set k _ = _
    rw [set_prefix_step _ _ _ _ (hlenA _) hk]
    show _ = (p.m_x0.take (k + 1)).map (syncPosition rbo) ++ p.m_x.drop (k + 1)
    rw [htake]
    rfl
  have esv : (syncFirst rbo k p).m_v.set k (syncVelocity rbo p.m_x0[k])
      = (syncFirst rbo (k + 1) p).m_v := by
    show ((p.m_x0.take k).map (syncVelocity rbo) ++ p.m_v.drop k).set k _ = _
    rw [set_prefix_step _ _ _ _ (hlenA _) hkv]
    show _ = (p.m_x0.take (k + 1)).map (syncVelocity rbo) ++ p.m_v.drop (k + 1)
    rw [htake]
  have eget : ((syncFirst rbo k p).m_x.set k
      (rbo.getRotation.mulVec p.m_x0[k] + rbo.getPosition))[k]? =
        some (syncPosition rbo p.m_x0[k]) := by
    rw [List.getElem?_set]
    simp [ex, hk, syncPosition]
  simp only [e0, ex, hk, if_true, eget, ev, hkv]
  rw [esx]
  have esv' : (syncFirst rbo k p).m_v.set k
      (rbo.getAngularVelocity.cross (syncPosition rbo p.m_x0[k] - rbo.getPosition) +
        rbo.getVelocity) = (syncFirst rbo (k + 1) p).m_v := esv
  rw [esv']
  rfl

theorem forLoop_updateBoundaryParticle (rbo : RigidBodyObject α)
    (p : RigidBodyParticleObject α) (hp : p.ParallelArrays) (n : Nat) :
    ∀ k, k + n ≤ p.m_x.length →
      forLoop (updateBoundaryParticle rbo) n k (syncFirst rbo k p) =
        some (syncFirst rbo (k + n) p) := by
  induction n with
  | zero => intro k _; rfl
  | succ n ih =>
    intro k hk
    rw [forLoop_succ, updateBoundaryParticle_syncFirst rbo p hp k (by omega)]
    simp only [Option.some_bind]
    rw [ih (k + 1) (by omega)]
    congr 2
    omega

end lemmas2

section lemmas3
variable {α : Type} [CommRing α]

theorem syncFirst_length (p : RigidBodyParticleObject α) (hp : p.ParallelArrays) :
    syncFirst p.m_rigidBody p.m_x.length p = syncAll p := by
  obtain ⟨h0, hv, _, _⟩ := hp
  unfold syncFirst syncAll
  have e1 : p.m_x0.take p.m_x.length = p.m_x0 := List.take_of_length_le (by omega)
  have e2 : p.m_x.drop p.m_x.length = [] := List.drop_of_length_le (le_refl _)
  have e3 : p.m_v.drop p.m_x.length = [] := List.drop_of_length_le (by omega)
  rw [e1, e2, e3, List.append_nil, List.append_nil]

theorem syncObject_eq (forceUpdate : Bool) (p : RigidBodyParticleObject α) (hp : p.WF) :
    syncObject forceUpdate p =
      some (if p.m_rigidBody.isDynamic || forceUpdate then syncAll p else p) := by
  unfold syncObject
  by_cases hc : (p.m_rigidBody.isDynamic || forceUpdate) = true
  · rw [if_pos hc, if_pos hc, toInt_numberOfParticles p hp.2]
    have h := forLoop_updateBoundaryParticle p.m_rigidBody p hp.1 p.m_x.length 0 (by omega)
    rw [syncFirst_zero, Nat.zero_add, syncFirst_length p hp.1] at h
    simpa using h
  · rw [if_neg hc, if_neg hc]

theorem updateBoundaryParticlesObject_eq (forceUpdate : Bool) :
    (updateBoundaryParticlesObject forceUpdate : Nat → FluidModel α → Option (FluidModel α)) =
      onRigid (syncObject forceUpdate) := by
  funext i m
  unfold updateBoundaryParticlesObject onRigid syncObject
  cases hg : m.getRigidBodyParticleObject i with
  | none => rfl
  | some p =>
    simp only
    by_cases hc : (p.m_rigidBody.isDynamic || forceUpdate) = true
    · rw [if_pos hc, if_pos hc]
      cases toInt p.numberOfParticles <;> rfl
    · rw [if_neg hc, if_neg hc, Option.map_some', set_get_self m i p hg]

theorem WF_syncAll (p : RigidBodyParticleObject α) (hp : p.WF) : (syncAll p).WF := by
  obtain ⟨⟨h0, hv, hf, hpsi⟩, hlt⟩ := hp
  refine ⟨⟨?_, ?_, ?_, ?_⟩, ?_⟩ <;> simp [syncAll] <;> omega

/-- What `updateBoundaryParticles` does to a well-formed model. -/
theorem updateBoundaryParticles_spec (forceUpdate : Bool) (m : FluidModel α) (hm : m.WF) :
    ∃ m', updateBoundaryParticles forceUpdate m = some m' ∧
      m'.m_particleObjects.length = m.m_particleObjects.length ∧
      ∀ i, i < m.numberOfRigidBodyParticleObjects → ∀ p,
        m.getRigidBodyParticleObject i = some p →
        m'.getRigidBodyParticleObject i =
          some (if p.m_rigidBody.isDynamic || forceUpdate then syncAll p else p) := by
  have hall : ∀ j, j < m.numberOfRigidBodyParticleObjects →
      ∃ p, m.getRigidBodyParticleObject j = some p ∧ p.WF := by
    intro j hj
    have h := hm.2 j hj
    unfold FluidModel.RigidAt at h
    cases hg : m.getRigidBodyParticleObject j with
    | none => rw [hg] at h; exact absurd h id
    | some p => rw [hg] at h; exact ⟨p, rfl, h⟩
  obtain ⟨m', h1, h2, h3, _⟩ := forLoop_onRigid (syncObject forceUpdate)
    m.numberOfRigidBodyParticleObjects 0 m hm.1 (by omega) (by
      intro j _ hj
      obtain ⟨p, hp, hwf⟩ := hall j (by omega)
      exact ⟨p, _, hp, syncObject_eq forceUpdate p hwf⟩)
  refine ⟨m', ?_, h2, ?_⟩
  · unfold updateBoundaryParticles
    rw [updateBoundaryParticlesObject_eq]
    exact h1
  · intro i hi p hp
    obtain ⟨p', hp', hget⟩ := h3 i (Nat.zero_le _) (by omega) p hp
    obtain ⟨q, hq, hwf⟩ := hall i hi
    rw [hp] at hq
    cases hq
    rw [syncObject_eq forceUpdate p hwf] at hp'
    cases hp'
    exact hget

end lemmas3

section lemmas4
variable {α : Type} [CommRing α]

theorem Vector3r.add_assoc' (a b c : Vector3r α) : a + b + c = a + (b + c) := by
  ext <;> simp [add_assoc]

theorem Vector3r.add_zero' (a : Vector3r α) : a + 0 = a := by
  ext <;> simp

theorem Vector3r.zero_add' (a : Vector3r α) : 0 + a = a := by
  ext <;> simp

theorem Vector3r.setZero_eq : (Vector3r.setZero : Vector3r α) = 0 := rfl

theorem Vector3r.foldl_add (l : List (Vector3r α)) :
    ∀ a : Vector3r α, l.foldl (· + ·) a = a + Vector3r.sum l := by
  induction l with
  | nil => intro a; simp [Vector3r.sum, Vector3r.add_zero']
  | cons v vs ih =>
    intro a
    rw [List.foldl_cons, ih, Vector3r.sum, Vector3r.add_assoc']

theorem Vector3r.foldl_add_zero (l : List (Vector3r α)) :
    l.foldl (· + ·) Vector3r.setZero = Vector3r.sum l := by
  rw [Vector3r.foldl_add, Vector3r.setZero_eq, Vector3r.zero_add']

theorem foldl_take_succ (l : List (Vector3r α)) (k : Nat) (hk : k < l.length) :
    (l.take (k + 1)).foldl (· + ·) Vector3r.setZero =
      (l.take k).foldl (· + ·) Vector3r.setZero + l[k] := by
  rw [List.take_succ, List.getElem?_eq_getElem hk, List.foldl_append]
  rfl

theorem torqueTerms_length (p : RigidBodyParticleObject α) (hp : p.ParallelArrays) :
    (torqueTerms p).length = p.m_x.length := by
  obtain ⟨_, _, hf, _⟩ := hp
  simp [torqueTerms, hf]

theorem updateBoundaryForce_reduceFirst (p : RigidBodyParticleObject α)
    (hp : p.ParallelArrays) (k : Nat) (hk : k < p.m_x.length) :
    updateBoundaryForce k (reduceFirst k p) = some (reduceFirst (k + 1) p) := by
  have hlen := torqueTerms_length p hp
  obtain ⟨_, _, hf, _⟩ := hp
  have hkf : k < p.m_f.length := by omega
  have hkt : k < (torqueTerms p).length := by omega
  have ef : (reduceFirst k p).rbpo.m_f[k]? = some p.m_f[k] := by
    show (List.replicate k Vector3r.setZero ++ p.m_f.drop k)[k]? = _
    rw [List.getElem?_append_right (by simp)]
    simp [List.getElem?_eq_getElem hkf]
  have ex : (reduceFirst k p).rbpo.m_x[k]? = some p.m_x[k] :=
    List.getElem?_eq_getElem hk
  have eset : (reduceFirst k p).rbpo.m_f.set k Vector3r.setZero =
      (reduceFirst (k + 1) p).rbpo.m_f := by
    show (List.replicate k Vector3r.setZero ++ p.m_f.drop k).set k _ =
      List.replicate (k + 1) Vector3r.setZero ++ p.m_f.drop (k + 1)
    rw [set_prefix_step _ _ _ _ (by simp) hkf, List.replicate_succ']
  have et : (torqueTerms p)[k] = (p.m_x[k] - p.m_rigidBody.getPosition).cross p.m_f[k] := by
    simp [torqueTerms]
  unfold updateBoundaryForce
  rw [ef, ex]
  simp only
  rw [eset]
  show some _ = some _
  congr 1
  show ForceLoopState.mk _ _ _ = ForceLoopState.mk _ _ _
  congr 1
  · exact (foldl_take_succ p.m_f k hkf).symm
  · rw [foldl_take_succ (torqueTerms p) k hkt, et]
    rfl

theorem forLoop_updateBoundaryForce (p : RigidBodyParticleObject α) (hp : p.ParallelArrays)
    (n : Nat) : ∀ k, k + n ≤ p.m_x.length →
      forLoop updateBoundaryForce n k (reduceFirst k p) = some (reduceFirst (k + n) p) := by
  induction n with
  | zero => intro k _; rfl
  | succ n ih =>
    intro k hk
    rw [forLoop_succ, updateBoundaryForce_reduceFirst p hp k (by omega)]
    simp only [Option.some_bind]
    rw [ih (k + 1) (by omega)]
    congr 2
    omega

theorem reduceObject_eq (p : RigidBodyParticleObject α) (hp : p.WF) :
    reduceObject p = some (if p.m_rigidBody.isDynamic then reduceAll p else p) := by
  unfold reduceObject
  by_cases hc : p.m_rigidBody.isDynamic = true
  · rw [if_pos hc, if_pos hc]
    let p1 : RigidBodyParticleObject α :=
      { p with m_rigidBody := p.m_rigidBody.updateTimeStepSize }
    have hp1 : p1.ParallelArrays := hp.1
    have h := forLoop_updateBoundaryForce p1 hp1 p1.m_x.length 0 (by omega)
    have hstart : reduceFirst 0 p1 =
        { force := Vector3r.setZero, torque := Vector3r.setZero, rbpo := p1 } := by
      simp [reduceFirst]
    rw [hstart, Nat.zero_add] at h
    have hint : toInt p1.numberOfParticles = some (p1.m_x.length : Int) :=
      toInt_numberOfParticles p1 hp.2
    show (match toInt p1.numberOfParticles with
      | none => none
      | some n => (forLoop updateBoundaryForce n.toNat 0
          { force := Vector3r.setZero, torque := Vector3r.setZero, rbpo := p1 }).map
            fun (s : ForceLoopState α) => ({ s.rbpo with m_rigidBody :=
              (s.rbpo.m_rigidBody.addForce s.force).addTorque s.torque } :
              RigidBodyParticleObject α)) = _
    rw [hint]
    simp only [Int.toNat_ofNat]
    rw [h]
    simp only [Option.map_some']
    congr 1
    have hf : p.m_f.length = p.m_x.length := hp.1.2.2.1
    have htl : (torqueTerms p1).length = p1.m_x.length := torqueTerms_length p1 hp1
    have e1 : p1.m_f.take p1.m_x.length = p.m_f := List.take_of_length_le (by
      show p.m_f.length ≤ p.m_x.length
      omega)
    have e2 : (torqueTerms p1).take p1.m_x.length = torqueTerms p :=
      List.take_of_length_le (by omega)
    have e3 : p1.m_f.drop p1.m_x.length = [] := List.drop_of_length_le (by
      show p.m_f.length ≤ p.m_x.length
      omega)
    simp only [reduceFirst, e1, e2, e3, Vector3r.foldl_add_zero, List.append_nil]
    simp only [reduceAll, hf]
  · rw [if_neg hc, if_neg hc]

theorem updateBoundaryForcesObject_eq :
    (updateBoundaryForcesObject : Nat → FluidModel α → Option (FluidModel α)) =
      onRigid reduceObject := by
  funext i m
  unfold updateBoundaryForcesObject onRigid reduceObject
  cases hg : m.getRigidBodyParticleObject i with
  | none => rfl
  | some p =>
    simp only
    by_cases hc : p.m_rigidBody.isDynamic = true
    · rw [if_pos hc, if_pos hc]
      cases toInt ({ p with m_rigidBody := p.m_rigidBody.updateTimeStepSize } :
        RigidBodyParticleObject α).numberOfParticles with
      | none => rfl
      | some n =>
        simp only [Option.map_map]
        rfl
    · rw [if_neg hc, if_neg hc, Option.map_some', set_get_self m i p hg]

/-- What `updateBoundaryForces` does to a well-formed model. -/
theorem updateBoundaryForces_spec (m : FluidModel α) (hm : m.WF) :
    ∃ m', updateBoundaryForces m = some m' ∧
      m'.m_particleObjects.length = m.m_particleObjects.length ∧
      ∀ i, i < m.numberOfRigidBodyParticleObjects → ∀ p,
        m.getRigidBodyParticleObject i = some p →
        m'.getRigidBodyParticleObject i =
          some (if p.m_rigidBody.isDynamic then reduceAll p else p) := by
  obtain ⟨m', h1, h2, h3, _⟩ := forLoop_onRigid (reduceObject : RigidBodyParticleObject α → Option (RigidBodyParticleObject α))
    m.numberOfRigidBodyParticleObjects 0 m hm.1 (by omega) (by
      intro j _ hj
      obtain ⟨p, hp, hwf⟩ := rigid_of_WF m hm j (by omega)
      exact ⟨p, _, hp, reduceObject_eq p hwf⟩)
  refine ⟨m', ?_, h2, ?_⟩
  · unfold updateBoundaryForces
    rw [updateBoundaryForcesObject_eq]
    exact h1
  · intro i hi p hp
    obtain ⟨p', hp', hget⟩ := h3 i (Nat.zero_le _) (by omega) p hp
    obtain ⟨q, hq, hwf⟩ := rigid_of_WF m hm i hi
    rw [hp] at hq
    cases hq
    rw [reduceObject_eq p hwf] at hp'
    cases hp'
    exact hget

end lemmas4

/-- Checks of `FloatReal` against known values of `double` and `float`: small
integers are exact, `2 ^ 53 + 1` is a tie and rounds to the even neighbour
`2 ^ 53`, `2 ^ 53 + 3` rounds to `2 ^ 53 + 4`, and in `float` the sum
`2 ^ 127 + 2 ^ 127` overflows. -/
theorem FloatReal.rounding_examples :
    (FloatReal.ofInt binary64 3 * FloatReal.ofInt binary64 5 - 1 = FloatReal.ofInt binary64 14) ∧
    (FloatReal.ofInt binary64 (2 ^ 53) + 1 = FloatReal.ofInt binary64 (2 ^ 53)) ∧
    (FloatReal.ofInt binary64 (2 ^ 53) + FloatReal.ofInt binary64 3 =
      FloatReal.ofInt binary64 (2 ^ 53 + 4)) ∧
    (FloatReal.ofInt binary32 (2 ^ 127) + FloatReal.ofInt binary32 (2 ^ 127) =
      FloatReal.nonFinite) :=
  ⟨by decide, by decide, by decide, by decide⟩

section lemmas5
variable {α : Type} [CommRing α]

theorem syncAll_syncAll (p : RigidBodyParticleObject α) : syncAll (syncAll p) = syncAll p := rfl

theorem getElem?_syncAll_x (p : RigidBodyParticleObject α) (j : Nat) :
    (syncAll p).m_x[j]? = (p.m_x0[j]?).map (syncPosition p.m_rigidBody) := by
  simp [syncAll]

theorem getElem?_syncAll_v (p : RigidBodyParticleObject α) (j : Nat) :
    (syncAll p).m_v[j]? = (p.m_x0[j]?).map (syncVelocity p.m_rigidBody) := by
  simp [syncAll]

end lemmas5

section claims
variable {α : Type} [CommRing α]

/-- Claim C1 (kinematic sync). On a well-formed model `updateBoundaryParticles
forceUpdate` returns, and for every rigid-body particle object `i` whose body
is dynamic, and for every object when `forceUpdate` is true, the object keeps
its body, its rest positions and its particle count, and every particle `j` of
it has afterwards `x[j] = R * x0[j] + pos` and
`v[j] = ω × (x[j] - pos) + vel`, which is also `ω × (R * x0[j]) + vel`, where
`R`, `pos`, `ω` and `vel` are read from the body at the time of the call.
Well-formed means: the fluid object is there, the objects numbered by the
model are rigid-body particle objects with parallel arrays of one length, and
their particle counts fit the `int` loop counter. -/
theorem updateBoundaryParticles_kinematic_sync (forceUpdate : Bool) (m : FluidModel α)
    (hm : m.WF) :
    ∃ m', updateBoundaryParticles forceUpdate m = some m' ∧
      ∀ i, i < m.numberOfRigidBodyParticleObjects → ∀ rbpo,
        m.getRigidBodyParticleObject i = some rbpo →
        (rbpo.m_rigidBody.isDynamic = true ∨ forceUpdate = true) →
        ∃ rbpo', m'.getRigidBodyParticleObject i = some rbpo' ∧
          rbpo'.m_rigidBody = rbpo.m_rigidBody ∧ rbpo'.m_x0 = rbpo.m_x0 ∧
          rbpo'.m_x.length = rbpo.m_x.length ∧ rbpo'.m_v.length = rbpo.m_x.length ∧
          ∀ j, j < rbpo.m_x.length →
            ∃ x0 x v, rbpo'.m_x0[j]? = some x0 ∧ rbpo'.m_x[j]? = some x ∧
              rbpo'.m_v[j]? = some v ∧
              x = rbpo.m_rigidBody.getRotation.mulVec x0 + rbpo.m_rigidBody.getPosition ∧
              v = rbpo.m_rigidBody.getAngularVelocity.cross
                    (x - rbpo.m_rigidBody.getPosition) + rbpo.m_rigidBody.getVelocity ∧
              v = rbpo.m_rigidBody.getAngularVelocity.cross
                    (rbpo.m_rigidBody.getRotation.mulVec x0) + rbpo.m_rigidBody.getVelocity := by
  obtain ⟨m', h1, _, h3⟩ := updateBoundaryParticles_spec forceUpdate m hm
  refine ⟨m', h1, ?_⟩
  intro i hi rbpo hget hdyn
  obtain ⟨q, hq, hwf⟩ := rigid_of_WF m hm i hi
  rw [hget] at hq
  cases hq
  have hc : (rbpo.m_rigidBody.isDynamic || forceUpdate) = true := by
    rcases hdyn with h | h <;> simp [h]
  have hres := h3 i hi rbpo hget
  rw [if_pos hc] at hres
  obtain ⟨⟨h0, hv, _, _⟩, _⟩ := hwf
  refine ⟨syncAll rbpo, hres, rfl, rfl, ?_, ?_, ?_⟩
  · simp [syncAll, h0]
  · simp [syncAll, h0]
  · intro j hj
    have hj0 : j < rbpo.m_x0.length := by omega
    refine ⟨rbpo.m_x0[j], syncPosition rbpo.m_rigidBody rbpo.m_x0[j],
      syncVelocity rbpo.m_rigidBody rbpo.m_x0[j], ?_, ?_, ?_, rfl, rfl, ?_⟩
    · exact List.getElem?_eq_getElem hj0
    · rw [getElem?_syncAll_x, List.getElem?_eq_getElem hj0]; rfl
    · rw [getElem?_syncAll_v, List.getElem?_eq_getElem hj0]; rfl
    · unfold syncVelocity syncPosition
      rw [Vector3r.add_sub_cancel_right]

/-- Witness of C1: `exampleModel` is well-formed and the sync of it returns. -/
theorem updateBoundaryParticles_kinematic_sync_witness :
    exampleModel.WF ∧ ∃ m', updateBoundaryParticles false exampleModel = some m' :=
  ⟨by decide,
    (updateBoundaryParticles_kinematic_sync false exampleModel (by decide)).imp
      fun _ h => h.1⟩

/-- Claim C2 (force reduction). On a well-formed model `updateBoundaryForces`
returns, and every dynamic body has received, after the calls it had received
before, exactly `updateTimeStepSize`, then one `addForce` with the sum of the
`f[j]` held at entry, then one `addTorque` with the sum of the
`(x[j] - pos) × f[j]` over the same particles, and nothing else; the lists
summed have one entry per particle. -/
theorem updateBoundaryForces_force_reduction (m : FluidModel α) (hm : m.WF) :
    ∃ m', updateBoundaryForces m = some m' ∧
      ∀ i, i < m.numberOfRigidBodyParticleObjects → ∀ rbpo,
        m.getRigidBodyParticleObject i = some rbpo →
        rbpo.m_rigidBody.isDynamic = true →
        ∃ rbpo', m'.getRigidBodyParticleObject i = some rbpo' ∧
          rbpo'.m_rigidBody.calls = rbpo.m_rigidBody.calls ++
            [AdapterCall.updateTimeStepSize,
              AdapterCall.addForce (Vector3r.sum rbpo.m_f),
              AdapterCall.addTorque (Vector3r.sum
                (List.zipWith (fun x f => (x - rbpo.m_rigidBody.getPosition).cross f)
                  rbpo.m_x rbpo.m_f))] ∧
          (List.zipWith (fun x f => (x - rbpo.m_rigidBody.getPosition).cross f)
            rbpo.m_x rbpo.m_f).length = rbpo.m_x.length ∧
          rbpo.m_f.length = rbpo.m_x.length := by
  obtain ⟨m', h1, _, h3⟩ := updateBoundaryForces_spec m hm
  refine ⟨m', h1, ?_⟩
  intro i hi rbpo hget hdyn
  obtain ⟨q, hq, hwf⟩ := rigid_of_WF m hm i hi
  rw [hget] at hq
  cases hq
  have hres := h3 i hi rbpo hget
  rw [if_pos hdyn] at hres
  refine ⟨reduceAll rbpo, hres, ?_, torqueTerms_length rbpo hwf.1, hwf.1.2.2.1⟩
  simp [reduceAll, RigidBodyObject.addTorque, RigidBodyObject.addForce,
    RigidBodyObject.updateTimeStepSize, torqueTerms]

/-- Witness of C2: `exampleModel` is well-formed and its force reduction
returns. -/
theorem updateBoundaryForces_force_reduction_witness :
    exampleModel.WF ∧ ∃ m', updateBoundaryForces exampleModel = some m' :=
  ⟨by decide,
    (updateBoundaryForces_force_reduction exampleModel (by decide)).imp fun _ h => h.1⟩

/-- Counterexample to C3 as stated: in `exampleModel`, which is well-formed,
object 1 belongs to a static body, and after `updateBoundaryForces` its first
force accumulator still holds `(1, 1, 1)`, which is not the zero vector. -/
theorem updateBoundaryForces_static_not_drained :
    exampleModel.WF ∧
      ∃ m' rbpo', updateBoundaryForces exampleModel = some m' ∧
        m'.getRigidBodyParticleObject 1 = some rbpo' ∧
        rbpo'.m_rigidBody.isDynamic = false ∧
        rbpo'.m_f[0]? = some ⟨1, 1, 1⟩ ∧ (⟨1, 1, 1⟩ : Vector3r Int) ≠ Vector3r.setZero := by
  refine ⟨by decide, ?_⟩
  obtain ⟨m', h1, _, h3⟩ := updateBoundaryForces_spec exampleModel (by decide)
  exact ⟨m', exampleObject false, h1, h3 1 (by decide) (exampleObject false) (by decide),
    by decide, by decide, by decide⟩

/-- Claim C3, amended to the guard of the code. On a well-formed model
`updateBoundaryForces` returns, and for every rigid-body particle object the
number of force accumulators is unchanged; if its body is dynamic, every force
accumulator `f[j]` is the zero vector afterwards, whatever it held before; if
its body is not dynamic, the accumulators `m_f` are left exactly as they
were. -/
theorem updateBoundaryForces_drains_dynamic (m : FluidModel α) (hm : m.WF) :
    ∃ m', updateBoundaryForces m = some m' ∧
      ∀ i, i < m.numberOfRigidBodyParticleObjects → ∀ rbpo,
        m.getRigidBodyParticleObject i = some rbpo →
        ∃ rbpo', m'.getRigidBodyParticleObject i = some rbpo' ∧
          rbpo'.m_f.length = rbpo.m_f.length ∧
          rbpo'.m_f.length = rbpo.m_x.length ∧ rbpo'.m_x.length = rbpo.m_x.length ∧
          (rbpo.m_rigidBody.isDynamic = true →
            ∀ j, j < rbpo.m_x.length → rbpo'.m_f[j]? = some Vector3r.setZero) ∧
          (rbpo.m_rigidBody.isDynamic = false → rbpo'.m_f = rbpo.m_f) := by
  obtain ⟨m', h1, _, h3⟩ := updateBoundaryForces_spec m hm
  refine ⟨m', h1, ?_⟩
  intro i hi rbpo hget
  obtain ⟨q, hq, hwf⟩ := rigid_of_WF m hm i hi
  rw [hget] at hq
  cases hq
  have hres := h3 i hi rbpo hget
  have hf : rbpo.m_f.length = rbpo.m_x.length := hwf.1.2.2.1
  cases hdyn : rbpo.m_rigidBody.isDynamic
  · rw [if_neg (by simp [hdyn])] at hres
    exact ⟨rbpo, hres, rfl, hf, rfl, fun h => by simp at h, fun _ => rfl⟩
  · rw [if_pos hdyn] at hres
    refine ⟨reduceAll rbpo, hres, ?_, ?_, rfl, ?_, fun h => by simp at h⟩
    · simp [reduceAll]
    · simp [reduceAll, hf]
    · intro _ j hj
      simp [reduceAll, hf, hj]

/-- Witness of the amended C3 on `exampleModel`. -/
theorem updateBoundaryForces_drains_dynamic_witness :
    exampleModel.WF ∧ ∃ m', updateBoundaryForces exampleModel = some m' :=
  ⟨by decide,
    (updateBoundaryForces_drains_dynamic exampleModel (by decide)).imp fun _ h => h.1⟩

/-- Claim C4 (static bodies are not synced). On a well-formed model
`updateBoundaryParticles false` returns and leaves the positions `m_x` and the
velocities `m_v` of every rigid-body particle object whose body is not dynamic
as they were, whatever pose the body reports. -/
theorem updateBoundaryParticles_static_unchanged (m : FluidModel α) (hm : m.WF) :
    ∃ m', updateBoundaryParticles false m = some m' ∧
      ∀ i, i < m.numberOfRigidBodyParticleObjects → ∀ rbpo,
        m.getRigidBodyParticleObject i = some rbpo →
        rbpo.m_rigidBody.isDynamic = false →
        ∃ rbpo', m'.getRigidBodyParticleObject i = some rbpo' ∧
          rbpo'.m_x = rbpo.m_x ∧ rbpo'.m_v = rbpo.m_v := by
  obtain ⟨m', h1, _, h3⟩ := updateBoundaryParticles_spec false m hm
  refine ⟨m', h1, ?_⟩
  intro i hi rbpo hget hdyn
  have hres := h3 i hi rbpo hget
  rw [if_neg (by simp [hdyn])] at hres
  exact ⟨rbpo, hres, rfl, rfl⟩

/-- Witness of C4: `exampleModel`, whose static object is out of date with
respect to its body, is well-formed and its sync returns. -/
theorem updateBoundaryParticles_static_unchanged_witness :
    exampleModel.WF ∧ ∃ m', updateBoundaryParticles false exampleModel = some m' :=
  ⟨by decide,
    (updateBoundaryParticles_static_unchanged exampleModel (by decide)).imp
      fun _ h => h.1⟩

/-- Claim C5 (no force on static bodies). On a well-formed model
`updateBoundaryForces` returns, and a body that is not dynamic has received no
call: its record of calls, and the body as a whole, are as before, whatever
its particles hold in their force accumulators. -/
theorem updateBoundaryForces_static_no_calls (m : FluidModel α) (hm : m.WF) :
    ∃ m', updateBoundaryForces m = some m' ∧
      ∀ i, i < m.numberOfRigidBodyParticleObjects → ∀ rbpo,
        m.getRigidBodyParticleObject i = some rbpo →
        rbpo.m_rigidBody.isDynamic = false →
        ∃ rbpo', m'.getRigidBodyParticleObject i = some rbpo' ∧
          rbpo'.m_rigidBody.calls = rbpo.m_rigidBody.calls ∧
          rbpo'.m_rigidBody = rbpo.m_rigidBody := by
  obtain ⟨m', h1, _, h3⟩ := updateBoundaryForces_spec m hm
  refine ⟨m', h1, ?_⟩
  intro i hi rbpo hget hdyn
  have hres := h3 i hi rbpo hget
  rw [if_neg (by simp [hdyn])] at hres
  exact ⟨rbpo, hres, rfl, rfl⟩

/-- Witness of C5: `exampleModel`, whose static object carries forces, is
well-formed and its force reduction returns. -/
theorem updateBoundaryForces_static_no_calls_witness :
    exampleModel.WF ∧ ∃ m', updateBoundaryForces exampleModel = some m' :=
  ⟨by decide,
    (updateBoundaryForces_static_no_calls exampleModel (by decide)).imp fun _ h => h.1⟩

/-- Claim C8 (idempotence of the kinematic sync). On a well-formed model the
forced sync returns a model `m0`, and any number of further calls of
`updateBoundaryParticles`, with any flags and no change of a body in between,
return `m0` again: every position and velocity keeps the value it has after
the forced sync. -/
theorem updateBoundaryParticles_idempotent (m : FluidModel α) (hm : m.WF) :
    ∃ m0, updateBoundaryParticles true m = some m0 ∧
      ∀ flags : List Bool, syncSteps flags m0 = some m0 := by
  obtain ⟨m0, h1, hlen, h3⟩ := updateBoundaryParticles_spec true m hm
  refine ⟨m0, h1, ?_⟩
  have hn := numberOfRigidBodyParticleObjects_congr m m0 hlen
  have hfix : ∀ forceUpdate : Bool, updateBoundaryParticles forceUpdate m0 = some m0 := by
    intro forceUpdate
    unfold updateBoundaryParticles
    rw [updateBoundaryParticlesObject_eq]
    apply forLoop_onRigid_id
    intro j _ hj
    rw [hn] at hj
    obtain ⟨p, hp, hwf⟩ := rigid_of_WF m hm j (by omega)
    have hres := h3 j (by omega) p hp
    simp only [Bool.or_true, if_true] at hres
    refine ⟨syncAll p, hres, ?_⟩
    rw [syncObject_eq forceUpdate (syncAll p) (WF_syncAll p hwf), syncAll_syncAll]
    simp
  intro flags
  induction flags with
  | nil => rfl
  | cons f fs ih =>
    show (updateBoundaryParticles f m0).bind (syncSteps fs) = some m0
    rw [hfix f]
    exact ih

/-- Witness of C8: one hundred further syncs of `exampleModel`. -/
theorem updateBoundaryParticles_idempotent_witness :
    exampleModel.WF ∧ ∃ m0, updateBoundaryParticles true exampleModel = some m0 ∧
      syncSteps (List.replicate 100 false) m0 = some m0 :=
  ⟨by decide,
    (updateBoundaryParticles_idempotent exampleModel (by decide)).imp
      fun _ h => ⟨h.1, h.2 (List.replicate 100 false)⟩⟩

end claims

section lemmas6
variable {α : Type} [CommRing α]

theorem forLoop_transformToLocalStep (rb : RigidBodyObject α) (l : List (Vector3r α))
    (n : Nat) : ∀ k, k + n ≤ l.length →
      forLoop (transformToLocalStep rb) n k ((l.take k).map (toLocal rb) ++ l.drop k) =
        some ((l.take (k + n)).map (toLocal rb) ++ l.drop (k + n)) := by
  induction n with
  | zero => intro k _; rfl
  | succ n ih =>
    intro k hk
    have hkl : k < l.length := by omega
    have hstep : transformToLocalStep rb k ((l.take k).map (toLocal rb) ++ l.drop k) =
        some ((l.take (k + 1)).map (toLocal rb) ++ l.drop (k + 1)) := by
      unfold transformToLocalStep
      have e : ((l.take k).map (toLocal rb) ++ l.drop k)[k]? = some l[k] := by
        have hlen : ((l.take k).map (toLocal rb)).length = k := by simp; omega
        rw [List.getElem?_append_right (by omega), hlen, Nat.sub_self, List.getElem?_drop,
          Nat.add_zero, List.getElem?_eq_getElem hkl]
      rw [e]
      simp only
      rw [set_prefix_step _ _ _ _ (by simp; omega) hkl, List.take_succ,
        List.getElem?_eq_getElem hkl, List.map_append]
      rfl
    rw [forLoop_succ, hstep]
    simp only [Option.some_bind]
    rw [ih (k + 1) (by omega)]
    rw [show k + 1 + n = k + (n + 1) by omega]

theorem transformToLocal_eq (rb : RigidBodyObject α) (l : List (Vector3r α))
    (h : l.length < UINT_SIZE) : transformToLocal rb l = some (l.map (toLocal rb)) := by
  unfold transformToLocal
  rw [if_pos h]
  have e := forLoop_transformToLocalStep rb l l.length 0 (by omega)
  simpa using e

end lemmas6

section lemmas7
variable {α : Type} [CommRing α]

theorem loadOrSample_noCache (ext : InitExternals α) (r : α) (cp f : String) (i : Nat)
    (cur : List (Vector3r α)) (calls : List (InitCall α)) :
    loadOrSample ext false r cp f i cur calls =
      (ext.sampleMesh calls i r cur, calls ++ [InitCall.sampleMesh i r]) := by
  simp [loadOrSample]

theorem loadOrSample_hit (ext : InitExternals α) (r : α) (cp f : String) (i : Nat)
    (cur : List (Vector3r α)) (calls : List (InitCall α))
    (h : (ext.readParticles calls f 1 cur).1 = true) :
    loadOrSample ext true r cp f i cur calls =
      ((ext.readParticles calls f 1 cur).2, calls ++ [InitCall.readParticles f 1 true]) := by
  simp [loadOrSample, h]

theorem loadOrSample_miss (ext : InitExternals α) (r : α) (cp f : String) (i : Nat)
    (cur : List (Vector3r α)) (calls : List (InitCall α))
    (h : (ext.readParticles calls f 1 cur).1 = false) :
    loadOrSample ext true r cp f i cur calls =
      (ext.sampleMesh (calls ++ [InitCall.readParticles f 1 false]) i r
          (ext.readParticles calls f 1 cur).2,
        calls ++ ([InitCall.readParticles f 1 false, InitCall.sampleMesh i r,
            InitCall.makeDir cp (ext.makeDir
              (calls ++ [InitCall.readParticles f 1 false, InitCall.sampleMesh i r]) cp)] ++
          if ext.makeDir
              (calls ++ [InitCall.readParticles f 1 false, InitCall.sampleMesh i r]) cp = 0
          then
            [InitCall.writeParticles f
              (toUnsignedInt (ext.sampleMesh (calls ++ [InitCall.readParticles f 1 false]) i r
                (ext.readParticles calls f 1 cur).2).length)
              (ext.sampleMesh (calls ++ [InitCall.readParticles f 1 false]) i r
                (ext.readParticles calls f 1 cur).2) r]
          else [])) := by
  by_cases hd : ext.makeDir
      (calls ++ [InitCall.readParticles f 1 false, InitCall.sampleMesh i r]) cp = 0
  · simp [loadOrSample, h, hd]
  · simp [loadOrSample, h, hd]

theorem loadOrSample_length (ext : InitExternals α) (hext : ext.Bounded) (useCache : Bool)
    (r : α) (cp f : String) (i : Nat) (calls : List (InitCall α)) :
    (loadOrSample ext useCache r cp f i [] calls).1.length < UINT_SIZE := by
  cases useCache with
  | false =>
    rw [loadOrSample_noCache]
    exact hext.2 _ _ _ _ (by simp [UINT_SIZE])
  | true =>
    cases h : (ext.readParticles calls f 1 []).1 with
    | true =>
      rw [loadOrSample_hit _ _ _ _ _ _ _ h]
      exact hext.1 _ _ _
    | false =>
      rw [loadOrSample_miss _ _ _ _ _ _ _ h]
      exact hext.2 _ _ _ _ (hext.1 _ _ _)

theorem initBoundaryDataBody_presampled (ext : InitExternals α) (sceneFile : String)
    (scene : Scene α) (useCache : Bool) (rigidBodies : List (RigidBodyObject α)) (i : Nat)
    (s : InitState α) (bm : BoundaryData α) (rb : RigidBodyObject α)
    (hbm : scene.boundaryModels[i]? = some bm) (hrb : rigidBodies[i]? = some rb)
    (hne : bm.samplesFile ≠ "") :
    initBoundaryDataBody ext sceneFile scene useCache rigidBodies i s =
      some
        { model := s.model.addRigidBodyObject rb
            (toUnsignedInt
              (ext.readParticles s.calls (samplesFileName ext sceneFile bm) bm.scale.x []).2.length)
            (ext.readParticles s.calls (samplesFileName ext sceneFile bm) bm.scale.x []).2
            (ext.boundaryPsi s.model
              (ext.readParticles s.calls (samplesFileName ext sceneFile bm) bm.scale.x []).2)
          calls := s.calls ++
            [InitCall.readParticles (samplesFileName ext sceneFile bm) bm.scale.x
                (ext.readParticles s.calls (samplesFileName ext sceneFile bm) bm.scale.x []).1,
              InitCall.addRigidBodyObject rb
                (toUnsignedInt
                  (ext.readParticles s.calls (samplesFileName ext sceneFile bm)
                    bm.scale.x []).2.length)
                (ext.readParticles s.calls (samplesFileName ext sceneFile bm) bm.scale.x []).2] } := by
  unfold initBoundaryDataBody
  rw [hbm]
  simp only
  rw [hrb]
  simp [hne]

theorem initBoundaryDataBody_sampled (ext : InitExternals α) (hext : ext.Bounded)
    (sceneFile : String) (scene : Scene α) (useCache : Bool)
    (rigidBodies : List (RigidBodyObject α)) (i : Nat)
    (s : InitState α) (bm : BoundaryData α) (rb : RigidBodyObject α)
    (hbm : scene.boundaryModels[i]? = some bm) (hrb : rigidBodies[i]? = some rb)
    (he : bm.samplesFile = "") :
    initBoundaryDataBody ext sceneFile scene useCache rigidBodies i s =
      some
        { model := s.model.addRigidBodyObject rb
            (toUnsignedInt ((loadOrSample ext useCache scene.particleRadius
              (cachePath ext sceneFile bm) (cacheFileName ext sceneFile bm i) i [] s.calls).1.map
                (toLocal rb)).length)
            ((loadOrSample ext useCache scene.particleRadius
              (cachePath ext sceneFile bm) (cacheFileName ext sceneFile bm i) i [] s.calls).1.map
                (toLocal rb))
            (ext.boundaryPsi s.model
              ((loadOrSample ext useCache scene.particleRadius
                (cachePath ext sceneFile bm) (cacheFileName ext sceneFile bm i) i []
                  s.calls).1.map (toLocal rb)))
          calls := (loadOrSample ext useCache scene.particleRadius
              (cachePath ext sceneFile bm) (cacheFileName ext sceneFile bm i) i [] s.calls).2 ++
            [InitCall.addRigidBodyObject rb
              (toUnsignedInt ((loadOrSample ext useCache scene.particleRadius
                (cachePath ext sceneFile bm) (cacheFileName ext sceneFile bm i) i []
                  s.calls).1.map (toLocal rb)).length)
              ((loadOrSample ext useCache scene.particleRadius
                (cachePath ext sceneFile bm) (cacheFileName ext sceneFile bm i) i []
                  s.calls).1.map (toLocal rb))] } := by
  unfold initBoundaryDataBody
  rw [hbm]
  simp only
  rw [hrb]
  simp only [he, ne_eq, not_true_eq_false, if_false, if_true]
  rw [transformToLocal_eq rb _ (loadOrSample_length ext hext useCache _ _ _ i s.calls)]
  rfl

end lemmas7

section claims2
variable {α : Type} [CommRing α]

end claims2

section claims3
variable {α : Type} [CommRing α]

end claims3

section numbering
variable {α : Type}

/-- Claim C9 (object numbering). For a model holding `k` particle objects with
`1 ≤ k` and `k ≤ 2 ^ 32`, the range of the `unsigned int` count,
`numberOfRigidBodyParticleObjects` is `k - 1`, and for every `i < k - 1`
`getRigidBodyParticleObject i` is the rigid-body particle object stored as
element `i + 1` of `m_particleObjects`, never element 0, and `getPosition`,
`getVelocity` and `getForce` with object index `i + 1` read the arrays of that
object. -/
theorem rigidBodyParticleObject_numbering (m : FluidModel α)
    (hk : 1 ≤ m.m_particleObjects.length) (hk2 : m.m_particleObjects.length ≤ 2 ^ 32) :
    m.numberOfRigidBodyParticleObjects = m.m_particleObjects.length - 1 ∧
      ∀ i, i < m.m_particleObjects.length - 1 →
        (∀ p, m.getRigidBodyParticleObject i = some p ↔
          m.m_particleObjects[i + 1]? = some (ParticleObjectPtr.rigid p)) ∧
        ∀ p, m.getRigidBodyParticleObject i = some p →
          ∀ j, m.getPosition (i + 1) j = p.m_x[j]? ∧ m.getVelocity (i + 1) j = p.m_v[j]? ∧
            m.getForce (i + 1) j = p.m_f[j]? := by
  have hn : m.numberOfRigidBodyParticleObjects = m.m_particleObjects.length - 1 := by
    rw [numberOfRigidBodyParticleObjects_eq m (by omega)]
    exact Nat.mod_eq_of_lt (by omega)
  refine ⟨hn, ?_⟩
  intro i hi
  have hidx : toUnsignedInt (i + 1) = i + 1 := (rigid_index m (by omega) i (by omega)).1
  have hiff : ∀ p, m.getRigidBodyParticleObject i = some p ↔
      m.m_particleObjects[i + 1]? = some (ParticleObjectPtr.rigid p) := by
    intro p
    unfold FluidModel.getRigidBodyParticleObject
    rw [hidx]
    cases h : m.m_particleObjects[i + 1]? with
    | none => simp
    | some q =>
      cases q with
      | base b => simp
      | rigid r => simp
  refine ⟨hiff, ?_⟩
  intro p hp j
  have he := (hiff p).1 hp
  simp [FluidModel.getPosition, FluidModel.getVelocity, FluidModel.getForce, he,
    ParticleObjectPtr.toBase]

/-- Witness of C9 on `exampleModel`, which holds three particle objects. -/
theorem rigidBodyParticleObject_numbering_witness :
    1 ≤ exampleModel.m_particleObjects.length ∧ exampleModel.m_particleObjects.length ≤ 2 ^ 32 ∧
      exampleModel.numberOfRigidBodyParticleObjects = exampleModel.m_particleObjects.length - 1 :=
  ⟨by decide, by decide,
    (rigidBodyParticleObject_numbering exampleModel (by decide) (by decide)).1⟩

end numbering

section exportFrameLemmas
variable {α W : Type}

theorem exportFrame_phases (ext : StepExternals α W) (scene : Scene α) (r : Int)
    (s s' : DemoState α W) (h : exportFrame ext scene r s = some s') :
    ∃ rest, s'.phases = s.phases ++ rest ∧ (rest = [] ∨ rest = [Phase.flushBufferAsync r]) ∧
      s'.pause = s.pause ∧
      s'.numberOfStepsPerRenderUpdate = s.numberOfStepsPerRenderUpdate := by
  unfold exportFrame at h
  split at h
  · split at h
    · exact absurd h (by simp)
    · injection h with h
      subst h
      exact ⟨_, rfl, Or.inr rfl, rfl, rfl⟩
  · injection h with h
    subst h
    exact ⟨[], by simp, Or.inl rfl, rfl, rfl⟩

theorem exportFrame_model (ext : StepExternals α W) (scene : Scene α) (r : Int)
    (s s' : DemoState α W) (h : exportFrame ext scene r s = some s') :
    s'.model = s.model := by
  unfold exportFrame at h
  split at h
  · split at h
    · exact absurd h (by simp)
    · injection h with h
      subst h
      rfl
  · injection h with h
    subst h
    rfl

theorem exportFrame_world (ext : StepExternals α W) (scene : Scene α) (r : Int)
    (s s' : DemoState α W) (h : exportFrame ext scene r s = some s') :
    s'.world = s.world := by
  unfold exportFrame at h
  split at h
  · split at h
    · exact absurd h (by simp)
    · injection h with h
      subst h
      rfl
  · injection h with h
    subst h
    rfl

end exportFrameLemmas

section lemmas8
variable {α W : Type} [LinearOrderedCommRing α]

theorem timeStepIteration_order (ext : StepExternals α W) (scene : Scene α)
    (a b : DemoState α W) (h : timeStepIteration ext scene a = some b) :
    (∃ m2 m4,
      updateBoundaryForces (ext.simulationStep a.model a.world).1 = some m2 ∧
      updateBoundaryParticles false
        (ext.pbdTimeStep m2 (ext.simulationStep a.model a.world).2).1 = some m4 ∧
      b.model = m4 ∧
      b.world = (ext.writeFrameFluidData m4
        (ext.getTime (ext.pbdTimeStep m2 (ext.simulationStep a.model a.world).2).2)
        (ext.pbdTimeStep m2 (ext.simulationStep a.model a.world).2).2).2) ∧
      b.pause = a.pause := by
  simp only [timeStepIteration] at h
  cases h2 : updateBoundaryForces (ext.simulationStep a.model a.world).1 with
  | none =>
    simp only [h2] at h
    cases h
  | some m2 =>
    simp only [h2] at h
    cases h4 : updateBoundaryParticles false
        (ext.pbdTimeStep m2 (ext.simulationStep a.model a.world).2).1 with
    | none =>
      simp only [h4] at h
      cases h
    | some m4 =>
      simp only [h4] at h
      obtain ⟨_, _, _, hpause, _⟩ := exportFrame_phases ext scene _ _ _ h
      exact ⟨⟨m2, m4, rfl, h4, exportFrame_model ext scene _ _ _ h,
        exportFrame_world ext scene _ _ _ h⟩, hpause⟩

theorem forLoop_timeStepIteration_order (ext : StepExternals α W) (scene : Scene α) (n : Nat) :
    ∀ (i : Nat) (s s' : DemoState α W),
      forLoop (fun _ => timeStepIteration ext scene) n i s = some s' →
      ∃ states : List (DemoState α W), states.head? = some s ∧ states.getLast? = some s' ∧
        states.length = n + 1 ∧ s'.pause = s.pause ∧
        ∀ k a b, states[k]? = some a → states[k + 1]? = some b →
          ∃ m2 m4,
            updateBoundaryForces (ext.simulationStep a.model a.world).1 = some m2 ∧
            updateBoundaryParticles false
              (ext.pbdTimeStep m2 (ext.simulationStep a.model a.world).2).1 = some m4 ∧
            b.model = m4 ∧
            b.world = (ext.writeFrameFluidData m4
              (ext.getTime (ext.pbdTimeStep m2 (ext.simulationStep a.model a.world).2).2)
              (ext.pbdTimeStep m2 (ext.simulationStep a.model a.world).2).2).2 := by
  induction n with
  | zero =>
    intro i s s' h
    rw [forLoop_zero] at h
    injection h with h
    subst h
    exact ⟨[s], rfl, rfl, rfl, rfl, fun k a b _ hb => by simp at hb⟩
  | succ n ih =>
    intro i s s' h
    rw [forLoop_succ] at h
    cases h1 : timeStepIteration ext scene s with
    | none => rw [h1] at h; exact absurd h (by simp)
    | some s1 =>
      rw [h1] at h
      obtain ⟨hstep, hpause⟩ := timeStepIteration_order ext scene s s1 h1
      obtain ⟨states, hhead, hlast, hlen, hpause', hall⟩ := ih (i + 1) s1 s' h
      cases states with
      | nil => simp at hhead
      | cons c tl =>
        simp only [List.head?_cons, Option.some.injEq] at hhead
        subst hhead
        refine ⟨s :: c :: tl, rfl, by rw [List.getLast?_cons_cons]; exact hlast,
          by simp at hlen ⊢; omega, by rw [hpause', hpause], ?_⟩
        intro k a b ha hb
        cases k with
        | zero =>
          simp only [List.getElem?_cons_zero, Option.some.injEq, zero_add,
            List.getElem?_cons_succ] at ha hb
          subst ha
          subst hb
          exact hstep
        | succ k =>
          rw [List.getElem?_cons_succ] at ha hb
          exact hall k a b ha hb

theorem applyPauseAt_phases (ext : StepExternals α W) (s : DemoState α W) :
    (applyPauseAt ext s).phases = s.phases ∧
      (applyPauseAt ext s).numberOfStepsPerRenderUpdate = s.numberOfStepsPerRenderUpdate := by
  unfold applyPauseAt
  split <;> exact ⟨rfl, rfl⟩

end lemmas8

section claims4
variable {α W : Type} [LinearOrderedCommRing α]

/-- Counterexample to C10 as stated: one step of `timeStep` on `exampleDemo`,
with an integrator that moves each body by the forces handed to it. The
dynamic body, at `(1, 2, 3)`, holds particles at `(0, 0, 0)` that the sync has
yet to update. After the step the body has received the force `(3, 1, 1)` and
the torque `(1, -8, 5)`, which is the torque of the positions `(0, 0, 0)` as
they were before any sync, it stands at `(4, 3, 4)`, and the particles are
where the sync puts them for that new position: the force reduction ran before
the integrator and the kinematic sync after it. A step in the order stated,
sync before reduction, leaves another model: torque `(1, 0, -1)`, the torque
of the synced positions `(1, 3, 3)` and `(0, 2, 3)`, and particles at these
places, which belong to the old position of the body. -/
theorem timeStep_reduction_before_sync :
    ((timeStep movingExternals exampleScene
        { exampleDemo with numberOfStepsPerRenderUpdate := 1 }).bind
      fun s => s.model.getRigidBodyParticleObject 0).map
        (fun p => (p.m_rigidBody.calls, p.m_rigidBody.getPosition, p.m_x, p.m_f)) =
      some ([AdapterCall.updateTimeStepSize, AdapterCall.addForce ⟨3, 1, 1⟩,
        AdapterCall.addTorque ⟨1, -8, 5⟩], ⟨4, 3, 4⟩, [⟨4, 4, 4⟩, ⟨3, 3, 4⟩],
        [⟨0, 0, 0⟩, ⟨0, 0, 0⟩]) ∧
    ((stepAsStated movingExternals exampleDemo.model exampleDemo.world).bind
      fun m => m.getRigidBodyParticleObject 0).map
        (fun p => (p.m_rigidBody.calls, p.m_rigidBody.getPosition, p.m_x, p.m_f)) =
      some ([AdapterCall.updateTimeStepSize, AdapterCall.addForce ⟨3, 1, 1⟩,
        AdapterCall.addTorque ⟨1, 0, -1⟩], ⟨4, 3, 4⟩, [⟨1, 3, 3⟩, ⟨0, 2, 3⟩],
        [⟨0, 0, 0⟩, ⟨0, 0, 0⟩]) ∧
    (timeStep movingExternals exampleScene
        { exampleDemo with numberOfStepsPerRenderUpdate := 1 }).map (fun s => s.model) ≠
      stepAsStated movingExternals exampleDemo.model exampleDemo.world ∧
    ((0 + (⟨0, 0, 0⟩ - ⟨1, 2, 3⟩ : Vector3r Int).cross ⟨1, 1, 1⟩) +
      (⟨0, 0, 0⟩ - ⟨1, 2, 3⟩ : Vector3r Int).cross ⟨2, 0, 0⟩ = ⟨1, -8, 5⟩) ∧
    ((0 + (⟨1, 3, 3⟩ - ⟨1, 2, 3⟩ : Vector3r Int).cross ⟨1, 1, 1⟩) +
      (⟨0, 2, 3⟩ - ⟨1, 2, 3⟩ : Vector3r Int).cross ⟨2, 0, 0⟩ = ⟨1, 0, -1⟩) :=
  ⟨by decide, by decide, by decide, by decide, by decide⟩

/-- Claim C10, amended to the order of the code. Whenever `timeStep` returns,
the demo has gone through a chain of states, from the state after the pause
check to the state returned, with one pass of the step loop from each state to
the next: no pass when paused and `numberOfStepsPerRenderUpdate` passes
otherwise. In every pass the solver works on the model and the collaborators
of the state the pass starts from; then the boundary force reduction
`updateBoundaryForces` works on the model the solver left; then the
rigid-body integrator works on the model the force reduction left; then the
boundary kinematic sync `updateBoundaryParticles false` works on the model the
integrator left; the frame writer receives the model the sync left, which is
the model of the next state. In each step the force reduction comes before
the kinematic sync. -/
theorem timeStep_phase_order (ext : StepExternals α W) (scene : Scene α)
    (s s' : DemoState α W) (h : timeStep ext scene s = some s') :
    ∃ states : List (DemoState α W),
      states.head? = some (applyPauseAt ext s) ∧ states.getLast? = some s' ∧
      states.length = (if s'.pause then 0 else s.numberOfStepsPerRenderUpdate) + 1 ∧
      ∀ k a b, states[k]? = some a → states[k + 1]? = some b →
        ∃ m2 m4,
          updateBoundaryForces (ext.simulationStep a.model a.world).1 = some m2 ∧
          updateBoundaryParticles false
            (ext.pbdTimeStep m2 (ext.simulationStep a.model a.world).2).1 = some m4 ∧
          b.model = m4 ∧
          b.world = (ext.writeFrameFluidData m4
            (ext.getTime (ext.pbdTimeStep m2 (ext.simulationStep a.model a.world).2).2)
            (ext.pbdTimeStep m2 (ext.simulationStep a.model a.world).2).2).2 := by
  obtain ⟨_, hn⟩ := applyPauseAt_phases ext s
  unfold timeStep at h
  split at h
  · next hp =>
    injection h with h
    subst h
    exact ⟨[applyPauseAt ext s], rfl, rfl, by simp [hp], fun k a b _ hb => by simp at hb⟩
  · next hp =>
    obtain ⟨states, hhead, hlast, hlen, hpause, hall⟩ :=
      forLoop_timeStepIteration_order ext scene _ _ _ _ h
    refine ⟨states, hhead, hlast, ?_, hall⟩
    rw [hlen, hpause, if_neg hp, hn]

/-- Witness of the amended C10: `timeStep` returns on `exampleDemo` with the
integrator that moves the bodies, after a chain of three states. -/
theorem timeStep_phase_order_witness :
    ∃ s', timeStep movingExternals exampleScene exampleDemo = some s' ∧
      ∃ states : List (DemoState Int Unit),
        states.head? = some (applyPauseAt movingExternals exampleDemo) ∧
        states.getLast? = some s' ∧
        states.length =
          (if s'.pause then 0 else exampleDemo.numberOfStepsPerRenderUpdate) + 1 :=
  (Option.isSome_iff_exists.1
    (by decide : (timeStep movingExternals exampleScene exampleDemo).isSome = true)).elim
    fun s' h => ⟨s', h, (timeStep_phase_order movingExternals exampleScene exampleDemo s' h).imp
      fun _ hb => ⟨hb.1, hb.2.1, hb.2.2.1⟩⟩

end claims4

section lemmas9
variable {α W : Type} [LinearOrderedCommRing α]

theorem timeStepIteration_flow (ext : StepExternals α W) (scene : Scene α)
    (s s' : DemoState α W) (h : timeStepIteration ext scene s = some s') :
    StepFlow ext s s' := by
  simp only [timeStepIteration] at h
  cases h2 : updateBoundaryForces (ext.simulationStep s.model s.world).1 with
  | none =>
    simp only [h2] at h
    cases h
  | some m2 =>
    simp only [h2] at h
    cases h4 : updateBoundaryParticles false
        (ext.pbdTimeStep m2 (ext.simulationStep s.model s.world).2).1 with
    | none =>
      simp only [h4] at h
      cases h
    | some m4 =>
      simp only [h4] at h
      obtain ⟨rest, hp, hrest, _, _⟩ := exportFrame_phases ext scene _ _ _ h
      have hmodel := exportFrame_model ext scene _ _ _ h
      exact ⟨m2, m4, _, rest, h2, h4, hmodel, by rw [hp, List.append_assoc], hrest⟩

theorem forLoop_timeStepIteration_flow (ext : StepExternals α W) (scene : Scene α) (n : Nat) :
    ∀ (i : Nat) (s s' : DemoState α W),
      forLoop (fun _ => timeStepIteration ext scene) n i s = some s' →
      StepsFlow ext n s s' := by
  induction n with
  | zero =>
    intro i s s' h
    rw [forLoop_zero] at h
    injection h
  | succ n ih =>
    intro i s s' h
    rw [forLoop_succ] at h
    cases h1 : timeStepIteration ext scene s with
    | none => rw [h1] at h; exact absurd h (by simp)
    | some s1 =>
      rw [h1] at h
      exact ⟨s1, timeStepIteration_flow ext scene s s1 h1, ih (i + 1) s1 s' h⟩

end lemmas9

section claims5
variable {α W : Type} [LinearOrderedCommRing α]

/-- Claim C11 (data flow of a step). When the demo is not paused and `timeStep`
returns, it has made `numberOfStepsPerRenderUpdate` passes of the step loop
one after the other, and every pass ran, in this order and once each, the
solver step, `updateBoundaryForces` on the model the solver left,
the integrator on the model the force reduction left, and
`updateBoundaryParticles false` on the model the integrator left, whose
outcome is the model the next pass hands to the solver; in the phases of a
pass each of the four occurs exactly once. -/
theorem timeStep_data_flow (ext : StepExternals α W) (scene : Scene α)
    (s s' : DemoState α W) (hrun : (applyPauseAt ext s).pause = false)
    (h : timeStep ext scene s = some s') :
    StepsFlow ext s.numberOfStepsPerRenderUpdate (applyPauseAt ext s) s' ∧
      ∀ a b : DemoState α W, StepFlow ext a b →
        ∃ block, b.phases = a.phases ++ block ∧
          block.take 4 = [Phase.simulationStep, Phase.updateBoundaryForces, Phase.pbdTimeStep,
            Phase.updateBoundaryParticles false] ∧
          block.count Phase.simulationStep = 1 ∧ block.count Phase.updateBoundaryForces = 1 ∧
          block.count Phase.pbdTimeStep = 1 ∧
          block.count (Phase.updateBoundaryParticles false) = 1 := by
  constructor
  · unfold timeStep at h
    rw [if_neg (by simp [hrun])] at h
    rw [← (applyPauseAt_phases ext s).2]
    exact forLoop_timeStepIteration_flow ext scene _ _ _ _ h
  · rintro a b ⟨m2, m4, r, rest, _, _, _, hp, hrest⟩
    refine ⟨_, hp, rfl, ?_⟩
    rcases hrest with hr | hr <;> subst hr <;> simp [List.count_cons]

/-- Witness of C11: `exampleDemo` is not paused and `timeStep` returns on it. -/
theorem timeStep_data_flow_witness :
    (applyPauseAt idleExternals exampleDemo).pause = false ∧
      ∃ s', timeStep idleExternals exampleScene exampleDemo = some s' ∧
        StepsFlow idleExternals exampleDemo.numberOfStepsPerRenderUpdate
          (applyPauseAt idleExternals exampleDemo) s' :=
  ⟨by decide,
    (Option.isSome_iff_exists.1
      (by decide : (timeStep idleExternals exampleScene exampleDemo).isSome = true)).elim
      fun s' h => ⟨s', h,
        (timeStep_data_flow idleExternals exampleScene exampleDemo s' (by decide) h).1⟩⟩

end claims5

section lemmas10
variable {α : Type}

theorem forLoop_onRigid_frame (g : RigidBodyParticleObject α → Option (RigidBodyParticleObject α))
    (n : Nat) : ∀ (i : Nat) (m m' : FluidModel α), 0 < m.m_particleObjects.length →
      i + n ≤ m.numberOfRigidBodyParticleObjects →
      forLoop (onRigid g) n i m = some m' →
      ∀ idx, (idx ≤ i ∨ i + n < idx) →
        m'.m_particleObjects[idx]? = m.m_particleObjects[idx]? := by
  induction n with
  | zero =>
    intro i m m' _ _ h idx _
    rw [forLoop_zero] at h
    injection h with h
    rw [h]
  | succ n ih =>
    intro i m m' hlen hn h idx hidx
    rw [forLoop_succ] at h
    cases h1 : onRigid g i m with
    | none => rw [h1] at h; exact absurd h (by simp)
    | some m1 =>
      rw [h1] at h
      have hi := rigid_index m hlen i (by omega)
      have hm1 : ∃ p', m1 = m.setRigidBodyParticleObject i p' := by
        unfold onRigid at h1
        cases hg : m.getRigidBodyParticleObject i with
        | none => rw [hg] at h1; exact absurd h1 (by simp)
        | some p =>
          rw [hg] at h1
          simp only at h1
          cases hq : g p with
          | none => rw [hq] at h1; exact absurd h1 (by simp)
          | some p' =>
            rw [hq] at h1
            exact ⟨p', by simpa using h1.symm⟩
      obtain ⟨p', hp'⟩ := hm1
      subst hp'
      rw [ih (i + 1) _ m' (by rw [length_setRigidBodyParticleObject]; exact hlen)
        (by rw [numberOfRigidBodyParticleObjects_set]; omega) h idx (by omega)]
      unfold FluidModel.setRigidBodyParticleObject
      rw [hi.1]
      simp only [List.getElem?_set]
      rw [if_neg (by omega)]

theorem WF_of_pointwise (m m' : FluidModel α) (hm : m.WF)
    (hlen : m'.m_particleObjects.length = m.m_particleObjects.length)
    (h : ∀ i, i < m.numberOfRigidBodyParticleObjects → ∀ p,
      m.getRigidBodyParticleObject i = some p → p.WF →
      ∃ p', m'.getRigidBodyParticleObject i = some p' ∧ p'.WF) : m'.WF := by
  refine ⟨by rw [hlen]; exact hm.1, ?_⟩
  intro i hi
  rw [numberOfRigidBodyParticleObjects_congr m m' hlen] at hi
  obtain ⟨p, hp, hwf⟩ := rigid_of_WF m hm i hi
  obtain ⟨p', hp', hwf'⟩ := h i hi p hp hwf
  unfold FluidModel.RigidAt
  rw [hp']
  exact hwf'

end lemmas10

section lemmas11
variable {α : Type} [CommRing α]

theorem WF_reduceAll (p : RigidBodyParticleObject α) (hp : p.WF) : (reduceAll p).WF := by
  obtain ⟨⟨h0, hv, hf, hpsi⟩, hlt⟩ := hp
  refine ⟨⟨?_, ?_, ?_, ?_⟩, ?_⟩ <;> simp [reduceAll] <;> omega

theorem updateBoundaryParticles_frame (forceUpdate : Bool) (m m' : FluidModel α) (hm : m.WF)
    (h : updateBoundaryParticles forceUpdate m = some m') (idx : Nat)
    (hidx : idx = 0 ∨ m.numberOfRigidBodyParticleObjects < idx) :
    m'.m_particleObjects[idx]? = m.m_particleObjects[idx]? := by
  unfold updateBoundaryParticles at h
  rw [updateBoundaryParticlesObject_eq] at h
  exact forLoop_onRigid_frame _ _ 0 m m' hm.1 (by omega) h idx (by omega)

theorem updateBoundaryForces_frame (m m' : FluidModel α) (hm : m.WF)
    (h : updateBoundaryForces m = some m') (idx : Nat)
    (hidx : idx = 0 ∨ m.numberOfRigidBodyParticleObjects < idx) :
    m'.m_particleObjects[idx]? = m.m_particleObjects[idx]? := by
  unfold updateBoundaryForces at h
  rw [updateBoundaryForcesObject_eq] at h
  exact forLoop_onRigid_frame _ _ 0 m m' hm.1 (by omega) h idx (by omega)

end lemmas11

section claims6
variable {α : Type} [CommRing α]

/-- Claim C12 (frame of the coupling operations). On a well-formed model both
operations return, so that no index used by their loops is out of range, and
the model they return is well-formed again, holds as many particle objects,
and has the fluid object and every object beyond those numbered by the model
as they were. For every rigid-body particle object, `updateBoundaryParticles`
leaves `m_x0`, `m_boundaryPsi`, `m_f` and the body as they were and keeps the
lengths of `m_x` and `m_v`; `updateBoundaryForces` leaves `m_x0`, `m_x`, `m_v`,
`m_boundaryPsi` and the pose and rates of the body as they were and keeps the
length of `m_f`; after both the arrays of the object are parallel. -/
theorem coupling_frame (forceUpdate : Bool) (m : FluidModel α) (hm : m.WF) :
    (∃ m', updateBoundaryParticles forceUpdate m = some m' ∧ m'.WF ∧
      m'.m_particleObjects.length = m.m_particleObjects.length ∧
      (∀ idx, idx = 0 ∨ m.numberOfRigidBodyParticleObjects < idx →
        m'.m_particleObjects[idx]? = m.m_particleObjects[idx]?) ∧
      ∀ i, i < m.numberOfRigidBodyParticleObjects → ∀ p,
        m.getRigidBodyParticleObject i = some p →
        ∃ p', m'.getRigidBodyParticleObject i = some p' ∧
          p'.m_x0 = p.m_x0 ∧ p'.m_boundaryPsi = p.m_boundaryPsi ∧ p'.m_f = p.m_f ∧
          p'.m_rigidBody = p.m_rigidBody ∧
          p'.m_x.length = p.m_x.length ∧ p'.m_v.length = p.m_v.length ∧ p'.ParallelArrays) ∧
    (∃ m', updateBoundaryForces m = some m' ∧ m'.WF ∧
      m'.m_particleObjects.length = m.m_particleObjects.length ∧
      (∀ idx, idx = 0 ∨ m.numberOfRigidBodyParticleObjects < idx →
        m'.m_particleObjects[idx]? = m.m_particleObjects[idx]?) ∧
      ∀ i, i < m.numberOfRigidBodyParticleObjects → ∀ p,
        m.getRigidBodyParticleObject i = some p →
        ∃ p', m'.getRigidBodyParticleObject i = some p' ∧
          p'.m_x0 = p.m_x0 ∧ p'.m_x = p.m_x ∧ p'.m_v = p.m_v ∧
          p'.m_boundaryPsi = p.m_boundaryPsi ∧ p'.m_f.length = p.m_f.length ∧
          p'.m_rigidBody.isDynamic = p.m_rigidBody.isDynamic ∧
          p'.m_rigidBody.getRotation = p.m_rigidBody.getRotation ∧
          p'.m_rigidBody.getPosition = p.m_rigidBody.getPosition ∧
          p'.m_rigidBody.getVelocity = p.m_rigidBody.getVelocity ∧
          p'.m_rigidBody.getAngularVelocity = p.m_rigidBody.getAngularVelocity ∧
          p'.ParallelArrays) := by
  constructor
  · obtain ⟨m', h1, hlen, h3⟩ := updateBoundaryParticles_spec forceUpdate m hm
    have hpoint : ∀ i, i < m.numberOfRigidBodyParticleObjects → ∀ p,
        m.getRigidBodyParticleObject i = some p → p.WF →
        ∃ p', m'.getRigidBodyParticleObject i = some p' ∧ p'.WF ∧
          p'.m_x0 = p.m_x0 ∧ p'.m_boundaryPsi = p.m_boundaryPsi ∧ p'.m_f = p.m_f ∧
          p'.m_rigidBody = p.m_rigidBody ∧
          p'.m_x.length = p.m_x.length ∧ p'.m_v.length = p.m_v.length := by
      intro i hi p hp hwf
      refine ⟨_, h3 i hi p hp, ?_⟩
      by_cases hc : (p.m_rigidBody.isDynamic || forceUpdate) = true
      · rw [if_pos hc]
        obtain ⟨⟨h0, hv, _, _⟩, _⟩ := hwf
        refine ⟨WF_syncAll p ⟨⟨h0, hv, ‹_›, ‹_›⟩, ‹_›⟩, rfl, rfl, rfl, rfl, ?_, ?_⟩
        · simp [syncAll, h0]
        · simp [syncAll, h0, hv]
      · rw [if_neg hc]
        exact ⟨hwf, rfl, rfl, rfl, rfl, rfl, rfl⟩
    refine ⟨m', h1, ?_, hlen, fun idx hidx => updateBoundaryParticles_frame forceUpdate m m' hm
      h1 idx hidx, ?_⟩
    · exact WF_of_pointwise m m' hm hlen fun i hi p hp hwf =>
        let ⟨p', hp', hwf', _⟩ := hpoint i hi p hp hwf
        ⟨p', hp', hwf'⟩
    · intro i hi p hp
      obtain ⟨q, hq, hwf⟩ := rigid_of_WF m hm i hi
      rw [hp] at hq
      cases hq
      obtain ⟨p', hp', hwf', e1, e2, e3, e4, e5, e6⟩ := hpoint i hi p hp hwf
      exact ⟨p', hp', e1, e2, e3, e4, e5, e6, hwf'.1⟩
  · obtain ⟨m', h1, hlen, h3⟩ := updateBoundaryForces_spec m hm
    have hpoint : ∀ i, i < m.numberOfRigidBodyParticleObjects → ∀ p,
        m.getRigidBodyParticleObject i = some p → p.WF →
        ∃ p', m'.getRigidBodyParticleObject i = some p' ∧ p'.WF ∧
          p'.m_x0 = p.m_x0 ∧ p'.m_x = p.m_x ∧ p'.m_v = p.m_v ∧
          p'.m_boundaryPsi = p.m_boundaryPsi ∧ p'.m_f.length = p.m_f.length ∧
          p'.m_rigidBody.isDynamic = p.m_rigidBody.isDynamic ∧
          p'.m_rigidBody.getRotation = p.m_rigidBody.getRotation ∧
          p'.m_rigidBody.getPosition = p.m_rigidBody.getPosition ∧
          p'.m_rigidBody.getVelocity = p.m_rigidBody.getVelocity ∧
          p'.m_rigidBody.getAngularVelocity = p.m_rigidBody.getAngularVelocity := by
      intro i hi p hp hwf
      refine ⟨_, h3 i hi p hp, ?_⟩
      by_cases hc : p.m_rigidBody.isDynamic = true
      · rw [if_pos hc]
        refine ⟨WF_reduceAll p hwf, rfl, rfl, rfl, rfl, ?_, rfl, rfl, rfl, rfl, rfl⟩
        simp [reduceAll]
      · rw [if_neg hc]
        exact ⟨hwf, rfl, rfl, rfl, rfl, rfl, rfl, rfl, rfl, rfl, rfl⟩
    refine ⟨m', h1, ?_, hlen, fun idx hidx => updateBoundaryForces_frame m m' hm h1 idx hidx, ?_⟩
    · exact WF_of_pointwise m m' hm hlen fun i hi p hp hwf =>
        let ⟨p', hp', hwf', _⟩ := hpoint i hi p hp hwf
        ⟨p', hp', hwf'⟩
    · intro i hi p hp
      obtain ⟨q, hq, hwf⟩ := rigid_of_WF m hm i hi
      rw [hp] at hq
      cases hq
      obtain ⟨p', hp', hwf', e⟩ := hpoint i hi p hp hwf
      exact ⟨p', hp', e.1, e.2.1, e.2.2.1, e.2.2.2.1, e.2.2.2.2.1, e.2.2.2.2.2.1,
        e.2.2.2.2.2.2.1, e.2.2.2.2.2.2.2.1, e.2.2.2.2.2.2.2.2.1, e.2.2.2.2.2.2.2.2.2, hwf'.1⟩

/-- Witness of C12: `exampleModel` is well-formed and both operations return on
it. -/
theorem coupling_frame_witness :
    exampleModel.WF ∧ (∃ m', updateBoundaryParticles true exampleModel = some m') ∧
      ∃ m', updateBoundaryForces exampleModel = some m' :=
  ⟨by decide, (coupling_frame true exampleModel (by decide)).1.imp fun _ h => h.1,
    (coupling_frame true exampleModel (by decide)).2.imp fun _ h => h.1⟩

end claims6

section lemmas12
variable {α : Type}

end lemmas12

section claims7
variable {α W : Type}

end claims7

section lemmas13a
variable {α : Type}

theorem Matrix3r.toMatrix_injective (a b : Matrix3r α) (h : a.toMatrix = b.toMatrix) :
    a = b := by
  have e : ∀ i j, a.toMatrix i j = b.toMatrix i j := fun i j => by rw [h]
  have e00 := e 0 0
  have e01 := e 0 1
  have e02 := e 0 2
  have e10 := e 1 0
  have e11 := e 1 1
  have e12 := e 1 2
  have e20 := e 2 0
  have e21 := e 2 1
  have e22 := e 2 2
  simp [Matrix3r.toMatrix] at e00 e01 e02 e10 e11 e12 e20 e21 e22
  ext <;> assumption

theorem InitExternals.BoundedInt.bounded (ext : InitExternals α) (h : ext.BoundedInt) :
    ext.Bounded := by
  refine ⟨fun calls f sc => ?_, fun calls i r cur _ => ?_⟩
  · have := h.1 calls f sc
    unfold UINT_SIZE
    omega
  · have := h.2 calls i r cur
    unfold UINT_SIZE
    omega

end lemmas13a

section lemmas13
variable {α : Type} [CommRing α]

theorem Matrix3r.toMatrix_mul (a b : Matrix3r α) :
    (a.mul b).toMatrix = a.toMatrix * b.toMatrix := by
  ext i j
  fin_cases i <;> fin_cases j <;>
    simp [Matrix3r.toMatrix, Matrix3r.mul, Matrix3r.transpose, Vector3r.dot, Matrix.mul_apply,
      Fin.sum_univ_three]

theorem Matrix3r.toMatrix_identity : (Matrix3r.identity : Matrix3r α).toMatrix = 1 := by
  ext i j
  fin_cases i <;> fin_cases j <;> simp [Matrix3r.toMatrix, Matrix3r.identity]
  rfl

theorem Matrix3r.mul_transpose_of_orthogonal (r : Matrix3r α)
    (h : r.transpose.mul r = Matrix3r.identity) : r.mul r.transpose = Matrix3r.identity := by
  apply Matrix3r.toMatrix_injective
  rw [Matrix3r.toMatrix_mul, Matrix3r.toMatrix_identity]
  have h2 : r.transpose.toMatrix * r.toMatrix = 1 := by
    rw [← Matrix3r.toMatrix_mul, h, Matrix3r.toMatrix_identity]
  exact (Matrix.mul_eq_one_comm).1 h2

theorem Matrix3r.mulVec_mulVec (a b : Matrix3r α) (v : Vector3r α) :
    a.mulVec (b.mulVec v) = (a.mul b).mulVec v := by
  ext <;> simp [Matrix3r.mulVec, Matrix3r.mul, Matrix3r.transpose, Vector3r.dot] <;> ring

theorem Matrix3r.identity_mulVec (v : Vector3r α) :
    (Matrix3r.identity : Matrix3r α).mulVec v = v := by
  ext <;> simp [Matrix3r.mulVec, Matrix3r.identity, Vector3r.dot]

theorem Vector3r.sub_add_cancel_right (a b : Vector3r α) : a - b + b = a := by
  ext <;> simp

theorem syncPosition_toLocal (rb : RigidBodyObject α)
    (h : rb.getRotation.transpose.mul rb.getRotation = Matrix3r.identity) (p : Vector3r α) :
    syncPosition rb (toLocal rb p) = p := by
  unfold syncPosition toLocal
  rw [Matrix3r.mulVec_mulVec, Matrix3r.mul_transpose_of_orthogonal _ h,
    Matrix3r.identity_mulVec, Vector3r.sub_add_cancel_right]

theorem map_syncPosition_toLocal (rb : RigidBodyObject α)
    (h : rb.getRotation.transpose.mul rb.getRotation = Matrix3r.identity)
    (pts : List (Vector3r α)) :
    (pts.map (toLocal rb)).map (syncPosition rb) = pts := by
  rw [List.map_map]
  conv_rhs => rw [← List.map_id pts]
  apply List.map_congr_left
  intro p _
  exact syncPosition_toLocal rb h p

end lemmas13

section lemmas14
variable {α : Type} [CommRing α]

theorem loadOrSample_calls_extend (ext : InitExternals α) (useCache : Bool) (r : α)
    (cp f : String) (i : Nat) (cur : List (Vector3r α)) (calls : List (InitCall α)) :
    calls <+: (loadOrSample ext useCache r cp f i cur calls).2 := by
  cases useCache with
  | false =>
    rw [loadOrSample_noCache]
    exact List.prefix_append _ _
  | true =>
    cases h : (ext.readParticles calls f 1 cur).1 with
    | true =>
      rw [loadOrSample_hit _ _ _ _ _ _ _ h]
      exact List.prefix_append _ _
    | false =>
      rw [loadOrSample_miss _ _ _ _ _ _ _ h]
      exact List.prefix_append _ _

theorem loadOrSample_length_int (ext : InitExternals α) (hext : ext.BoundedInt)
    (useCache : Bool) (r : α) (cp f : String) (i : Nat) (calls : List (InitCall α)) :
    (loadOrSample ext useCache r cp f i [] calls).1.length < 2 ^ 31 := by
  cases useCache with
  | false =>
    rw [loadOrSample_noCache]
    exact hext.2 _ _ _ _
  | true =>
    cases h : (ext.readParticles calls f 1 []).1 with
    | true =>
      rw [loadOrSample_hit _ _ _ _ _ _ _ h]
      exact hext.1 _ _ _
    | false =>
      rw [loadOrSample_miss _ _ _ _ _ _ _ h]
      exact hext.2 _ _ _ _

theorem registeredPoints_length (ext : InitExternals α) (hext : ext.BoundedInt)
    (sceneFile : String) (scene : Scene α) (useCache : Bool) (bm : BoundaryData α)
    (rb : RigidBodyObject α) (i : Nat) (calls : List (InitCall α)) :
    (registeredPoints ext sceneFile scene useCache bm rb i calls).length < 2 ^ 31 := by
  unfold registeredPoints
  split
  · rw [List.length_map]
    exact loadOrSample_length_int ext hext _ _ _ _ _ _
  · exact hext.1 _ _ _

theorem initBoundaryDataBody_step (ext : InitExternals α) (hext : ext.BoundedInt)
    (sceneFile : String) (scene : Scene α) (useCache : Bool)
    (rigidBodies : List (RigidBodyObject α)) (i : Nat) (s : InitState α)
    (bm : BoundaryData α) (rb : RigidBodyObject α)
    (hbm : scene.boundaryModels[i]? = some bm) (hrb : rigidBodies[i]? = some rb) :
    ∃ s', initBoundaryDataBody ext sceneFile scene useCache rigidBodies i s = some s' ∧
      s.calls <+: s'.calls ∧
      s'.model = s.model.addRigidBodyObject rb
        (toUnsignedInt (registeredPoints ext sceneFile scene useCache bm rb i s.calls).length)
        (registeredPoints ext sceneFile scene useCache bm rb i s.calls)
        (ext.boundaryPsi s.model
          (registeredPoints ext sceneFile scene useCache bm rb i s.calls)) := by
  by_cases he : bm.samplesFile = ""
  · refine ⟨_, initBoundaryDataBody_sampled ext hext.bounded sceneFile scene useCache rigidBodies
      i s bm rb hbm hrb he, ?_, ?_⟩
    · exact (loadOrSample_calls_extend ext useCache _ _ _ i [] s.calls).trans (List.prefix_append _ _)
    · simp only [registeredPoints, producedPoints, he, if_true]
  · refine ⟨_, initBoundaryDataBody_presampled ext sceneFile scene useCache rigidBodies
      i s bm rb hbm hrb he, ?_, ?_⟩
    · exact List.prefix_append _ _
    · simp only [registeredPoints, he, if_false]

theorem addRigidBodyObject_objects (m : FluidModel α) (rb : RigidBodyObject α)
    (pts : List (Vector3r α)) (psi : Nat → α) (hpts : pts.length < 2 ^ 31) :
    ∃ o, (m.addRigidBodyObject rb (toUnsignedInt pts.length) pts psi).m_particleObjects =
        m.m_particleObjects ++ [ParticleObjectPtr.rigid o] ∧
      o.m_rigidBody = rb ∧ o.m_x0 = pts ∧ o.WF := by
  have hu : toUnsignedInt pts.length = pts.length := by
    unfold toUnsignedInt UINT_SIZE
    omega
  have ht : pts.take pts.length = pts := List.take_of_length_le (le_refl _)
  refine ⟨_, rfl, rfl, ?_, ?_⟩
  · simp only [hu, ht]
  · refine ⟨⟨?_, ?_, ?_, ?_⟩, ?_⟩ <;> simp [hu, ht]
    omega

theorem forLoop_initBoundaryDataBody (ext : InitExternals α) (hext : ext.BoundedInt)
    (sceneFile : String) (scene : Scene α) (useCache : Bool)
    (rigidBodies : List (RigidBodyObject α))
    (hrb : scene.boundaryModels.length ≤ rigidBodies.length) (n : Nat) :
    ∀ (i : Nat) (s : InitState α), i + n ≤ scene.boundaryModels.length →
      ∃ s', ∃ objs : List (RigidBodyParticleObject α),
        forLoop (initBoundaryDataBody ext sceneFile scene useCache rigidBodies) n i s =
          some s' ∧
        s.calls <+: s'.calls ∧ objs.length = n ∧
        s'.model.m_particleObjects =
          s.model.m_particleObjects ++ objs.map ParticleObjectPtr.rigid ∧
        ∀ j, j < n → ∃ bm rb calls o,
          scene.boundaryModels[i + j]? = some bm ∧ rigidBodies[i + j]? = some rb ∧
          calls <+: s'.calls ∧ objs[j]? = some o ∧ o.m_rigidBody = rb ∧
          o.m_x0 = registeredPoints ext sceneFile scene useCache bm rb (i + j) calls ∧
          o.WF := by
  induction n with
  | zero =>
    intro i s _
    exact ⟨s, [], rfl, List.prefix_refl _, rfl, by simp, fun j hj => absurd hj (by omega)⟩
  | succ n ih =>
    intro i s hi
    have hib : i < scene.boundaryModels.length := by omega
    have hir : i < rigidBodies.length := by omega
    have hbm := List.getElem?_eq_getElem hib
    have hrbi := List.getElem?_eq_getElem hir
    obtain ⟨s1, h1, hpre1, hmodel1⟩ := initBoundaryDataBody_step ext hext sceneFile scene
      useCache rigidBodies i s _ _ hbm hrbi
    obtain ⟨o, hobjs, ho1, ho2, ho3⟩ := addRigidBodyObject_objects s.model rigidBodies[i]
      (registeredPoints ext sceneFile scene useCache scene.boundaryModels[i] rigidBodies[i] i
        s.calls)
      (ext.boundaryPsi s.model _) (registeredPoints_length ext hext _ _ _ _ _ _ _)
    rw [← hmodel1] at hobjs
    obtain ⟨s', objs, hloop, hpre, hlen, hmodel, hall⟩ := ih (i + 1) s1 (by omega)
    refine ⟨s', o :: objs, ?_, hpre1.trans hpre, by simp [hlen], ?_, ?_⟩
    · rw [forLoop_succ, h1]
      exact hloop
    · rw [hmodel, hobjs, List.append_assoc]
      rfl
    · intro j hj
      cases j with
      | zero =>
        exact ⟨_, _, s.calls, o, hbm, hrbi, hpre1.trans hpre, List.getElem?_cons_zero, ho1, ho2,
          ho3⟩
      | succ j =>
        obtain ⟨bm, rb, calls, o', e1, e2, e3, e4, e5, e6, e7⟩ := hall j (by omega)
        refine ⟨bm, rb, calls, o', ?_, ?_, e3, ?_, e5, ?_, e7⟩
        · rw [show i + (j + 1) = i + 1 + j by omega]; exact e1
        · rw [show i + (j + 1) = i + 1 + j by omega]; exact e2
        · simpa using e4
        · rw [show i + (j + 1) = i + 1 + j by omega]; exact e6

end lemmas14

section lemmas15
variable {α : Type}

theorem getRigidBodyParticleObject_append_left (m : FluidModel α)
    (objs : List (RigidBodyParticleObject α)) (idx : Nat)
    (h : toUnsignedInt (idx + 1) < m.m_particleObjects.length) :
    (⟨m.m_particleObjects ++ objs.map ParticleObjectPtr.rigid⟩ :
      FluidModel α).getRigidBodyParticleObject idx = m.getRigidBodyParticleObject idx := by
  unfold FluidModel.getRigidBodyParticleObject
  simp only
  rw [List.getElem?_append_left h]

theorem getRigidBodyParticleObject_append_right (m : FluidModel α)
    (objs : List (RigidBodyParticleObject α)) (j : Nat) (o : RigidBodyParticleObject α)
    (hlen : 0 < m.m_particleObjects.length)
    (hk : m.m_particleObjects.length + objs.length ≤ 2 ^ 32) (ho : objs[j]? = some o) :
    (⟨m.m_particleObjects ++ objs.map ParticleObjectPtr.rigid⟩ :
      FluidModel α).getRigidBodyParticleObject (m.m_particleObjects.length - 1 + j) =
        some o := by
  have hj : j < objs.length := by
    by_contra hc
    rw [List.getElem?_eq_none (by omega)] at ho
    exact absurd ho (by simp)
  have hu : toUnsignedInt (m.m_particleObjects.length - 1 + j + 1) =
      m.m_particleObjects.length + j := by
    unfold toUnsignedInt UINT_SIZE
    omega
  unfold FluidModel.getRigidBodyParticleObject
  simp only
  rw [hu, List.getElem?_append_right (by omega), Nat.add_sub_cancel_left, List.getElem?_map, ho]
  rfl

theorem WF_append (m : FluidModel α) (hm : m.WF) (objs : List (RigidBodyParticleObject α))
    (hk : m.m_particleObjects.length + objs.length ≤ 2 ^ 32)
    (hobjs : ∀ (j : Nat) (o : RigidBodyParticleObject α), objs[j]? = some o → o.WF) :
    (⟨m.m_particleObjects ++ objs.map ParticleObjectPtr.rigid⟩ : FluidModel α).WF ∧
      (⟨m.m_particleObjects ++ objs.map ParticleObjectPtr.rigid⟩ :
        FluidModel α).numberOfRigidBodyParticleObjects =
          m.m_particleObjects.length - 1 + objs.length ∧
      m.numberOfRigidBodyParticleObjects = m.m_particleObjects.length - 1 := by
  have hlen := hm.1
  have hn : m.numberOfRigidBodyParticleObjects = m.m_particleObjects.length - 1 := by
    rw [numberOfRigidBodyParticleObjects_eq m hlen]
    exact Nat.mod_eq_of_lt (by omega)
  have hlenM : (⟨m.m_particleObjects ++ objs.map ParticleObjectPtr.rigid⟩ :
      FluidModel α).m_particleObjects.length = m.m_particleObjects.length + objs.length := by
    simp
  have hnM : (⟨m.m_particleObjects ++ objs.map ParticleObjectPtr.rigid⟩ :
      FluidModel α).numberOfRigidBodyParticleObjects =
        m.m_particleObjects.length - 1 + objs.length := by
    rw [numberOfRigidBodyParticleObjects_eq _ (by rw [hlenM]; omega), hlenM]
    rw [Nat.mod_eq_of_lt (by omega)]
    omega
  refine ⟨⟨by rw [hlenM]; omega, ?_⟩, hnM, hn⟩
  intro idx hidx
  rw [hnM] at hidx
  unfold FluidModel.RigidAt
  by_cases hlt : idx < m.m_particleObjects.length - 1
  · have hu : toUnsignedInt (idx + 1) = idx + 1 := by
      unfold toUnsignedInt UINT_SIZE
      omega
    rw [getRigidBodyParticleObject_append_left m objs idx (by rw [hu]; omega)]
    exact hm.2 idx (by rw [hn]; exact hlt)
  · have hj : idx - (m.m_particleObjects.length - 1) < objs.length := by omega
    have ho := List.getElem?_eq_getElem hj
    have hget := getRigidBodyParticleObject_append_right m objs _ _ hlen hk ho
    rw [show m.m_particleObjects.length - 1 + (idx - (m.m_particleObjects.length - 1)) = idx
      by omega] at hget
    rw [hget]
    exact hobjs _ _ ho

end lemmas15

section claims8
variable {α : Type} [CommRing α]

/-- Claim C13, amended to exact arithmetic (the scalars form a commutative
ring): round trip through the local frame. Start `initBoundaryData` on a
well-formed model, with a rigid body for every boundary model, no more
than `2 ^ 32` particle objects in the end, and collaborators that answer fewer
than `2 ^ 31` points. Then `initBoundaryData` returns, and body `i` has become
rigid-body particle object `numberOfRigidBodyParticleObjects + i`, counted
from the objects held at the start. When body `i` has no pre-sampled file
and `pts` are the world-space points the cache or the sampler produced for it,
its rest positions are `x0 = Rᵀ * (p - pos)` for `p` in `pts`, and when
`Rᵀ * R` is the identity its positions after the forced sync that ends
`initBoundaryData` are `pts` again. When body `i` has a pre-sampled file, its
rest positions are the points read from that file, not transformed. The pose
of a body is the same throughout. -/
theorem initBoundaryData_round_trip (ext : InitExternals α) (hext : ext.BoundedInt)
    (sceneFile : String) (scene : Scene α) (useCache : Bool)
    (rigidBodies : List (RigidBodyObject α)) (m : FluidModel α) (hm : m.WF)
    (hk : m.m_particleObjects.length + scene.boundaryModels.length ≤ 2 ^ 32)
    (hrb : scene.boundaryModels.length ≤ rigidBodies.length) :
    ∃ s', initBoundaryData ext sceneFile scene useCache rigidBodies m = some s' ∧
      ∀ i, i < scene.boundaryModels.length → ∃ bm rb calls p,
        scene.boundaryModels[i]? = some bm ∧ rigidBodies[i]? = some rb ∧
        calls <+: s'.calls ∧
        s'.model.getRigidBodyParticleObject (m.numberOfRigidBodyParticleObjects + i) = some p ∧
        p.m_rigidBody = rb ∧
        (bm.samplesFile = "" →
          p.m_x0 = (producedPoints ext sceneFile scene useCache bm i calls).map
            (fun pt => rb.getRotation.transpose.mulVec (pt - rb.getPosition)) ∧
          (rb.getRotation.transpose.mul rb.getRotation = Matrix3r.identity →
            p.m_x = producedPoints ext sceneFile scene useCache bm i calls)) ∧
        (bm.samplesFile ≠ "" →
          p.m_x0 =
            (ext.readParticles calls (samplesFileName ext sceneFile bm) bm.scale.x []).2) := by
  obtain ⟨s1, objs, hloop, _, hlen, hmodel, hall⟩ := forLoop_initBoundaryDataBody ext hext
    sceneFile scene useCache rigidBodies hrb scene.boundaryModels.length 0
    { model := m, calls := [] } (by omega)
  have hobjs : ∀ (j : Nat) (o : RigidBodyParticleObject α), objs[j]? = some o → o.WF := by
    intro j o ho
    have hj : j < objs.length := by
      by_contra hc
      rw [List.getElem?_eq_none (by omega)] at ho
      exact absurd ho (by simp)
    obtain ⟨_, _, _, o', _, _, _, e4, _, _, e7⟩ := hall j (by omega)
    rw [ho] at e4
    cases e4
    exact e7
  obtain ⟨hWF, hnM, hn⟩ := WF_append m hm objs (by omega) hobjs
  have hM : s1.model = ⟨m.m_particleObjects ++ objs.map ParticleObjectPtr.rigid⟩ := by
    cases hs : s1.model with
    | mk l =>
      rw [hs] at hmodel
      simp only at hmodel
      rw [hmodel]
  rw [← hM] at hWF hnM
  obtain ⟨m', hsync, _, hget⟩ := updateBoundaryParticles_spec true s1.model hWF
  have hinit : initBoundaryData ext sceneFile scene useCache rigidBodies m =
      some { s1 with model := m' } := by
    unfold initBoundaryData
    have hlt : scene.boundaryModels.length < UINT_SIZE := by
      have := hm.1
      unfold UINT_SIZE
      omega
    rw [if_pos hlt, hloop]
    simp only [hsync, Option.map_some']
  refine ⟨_, hinit, ?_⟩
  intro i hi
  obtain ⟨bm, rb, calls, o, e1, e2, e3, e4, e5, e6, e7⟩ := hall i hi
  rw [Nat.zero_add] at e1 e2 e6
  have hgetM : s1.model.getRigidBodyParticleObject (m.numberOfRigidBodyParticleObjects + i) =
      some o := by
    rw [hM, hn]
    exact getRigidBodyParticleObject_append_right m objs i o hm.1 (by omega) e4
  have hres := hget (m.numberOfRigidBodyParticleObjects + i) (by rw [hnM, hn]; omega) o hgetM
  simp only [Bool.or_true, if_true] at hres
  refine ⟨bm, rb, calls, syncAll o, e1, e2, e3, hres, e5, ?_, ?_⟩
  · intro he
    have hx0 : o.m_x0 = (producedPoints ext sceneFile scene useCache bm i calls).map
        (toLocal rb) := by
      rw [e6]
      simp only [registeredPoints, he, if_true]
    refine ⟨hx0, ?_⟩
    intro horth
    show o.m_x0.map (syncPosition o.m_rigidBody) = _
    rw [hx0, e5]
    exact map_syncPosition_toLocal rb horth _
  · intro hne
    show o.m_x0 = _
    rw [e6]
    simp only [registeredPoints, hne, if_false]

theorem exampleInitExternals_boundedInt : exampleInitExternals.BoundedInt :=
  ⟨fun _ _ _ => by simp [exampleInitExternals], fun _ _ _ _ => by simp [exampleInitExternals]⟩

/-- Witness of the amended C13: the two bodies of `exampleScene`, whose rotation is a
quarter turn, registered on a model that holds the fluid object only; the
first sampled point is the position of the first particle afterwards. -/
theorem initBoundaryData_round_trip_witness :
    exampleInitExternals.BoundedInt ∧
      (⟨[ParticleObjectPtr.base ⟨[], [], []⟩]⟩ : FluidModel Int).WF ∧
      (exampleBody true).getRotation.transpose.mul (exampleBody true).getRotation =
        Matrix3r.identity ∧
      (∃ s', initBoundaryData exampleInitExternals "scenes/demo.json" exampleScene true
        [exampleBody true, exampleBody false] ⟨[ParticleObjectPtr.base ⟨[], [], []⟩]⟩ =
          some s') ∧
      (initBoundaryData exampleInitExternals "scenes/demo.json" exampleScene true
        [exampleBody true, exampleBody false] ⟨[ParticleObjectPtr.base ⟨[], [], []⟩]⟩).bind
          (fun s => s.model.getPosition 1 0) = some ⟨1, 3, 3⟩ :=
  ⟨exampleInitExternals_boundedInt, by decide, by decide,
    (initBoundaryData_round_trip exampleInitExternals exampleInitExternals_boundedInt
      "scenes/demo.json" exampleScene true [exampleBody true, exampleBody false]
      ⟨[ParticleObjectPtr.base ⟨[], [], []⟩]⟩ (by decide) (by decide) (by decide)).imp
      fun _ h => h.1,
    by decide⟩

end claims8

/-- Counterexample to C13 as stated, in the floating-point arithmetic of the
program, for `double` (first) and for `float` (second) alike: one body with
rotation the identity, which is orthogonal, placed at `(2 ^ 70, 0, 0)`, whose
pose `initBoundaryData` leaves as it is, and a sampler that produces the point
`(1, 0, 0)`. The rest position registered is `(-2 ^ 70, 0, 0)`, because
`1 - 2 ^ 70` rounds to `-2 ^ 70`, and the world position after the forced sync
that ends `initBoundaryData` is `(0, 0, 0)`, which is not the point the
sampler produced. -/
theorem initBoundaryData_round_trip_rounding :
    ((farBody binary64).getRotation.transpose.mul (farBody binary64).getRotation =
        Matrix3r.identity ∧
      producedPoints (farInitExternals binary64) "scenes/demo.json" (farScene binary64) false
        { samplesFile := "", meshFile := "a.obj", scale := ⟨1, 1, 1⟩, isWall := false } 0 [] =
          [⟨1, 0, 0⟩] ∧
      ((initBoundaryData (farInitExternals binary64) "scenes/demo.json" (farScene binary64)
          false [farBody binary64] ⟨[ParticleObjectPtr.base ⟨[], [], []⟩]⟩).bind
        fun s => s.model.getRigidBodyParticleObject 0).map
          (fun p => (p.m_rigidBody, p.m_x0, p.m_x)) =
        some (farBody binary64, [⟨FloatReal.ofInt binary64 (-(2 ^ 70)), 0, 0⟩], [⟨0, 0, 0⟩]) ∧
      (⟨0, 0, 0⟩ : Vector3r (FloatReal binary64)) ≠ ⟨1, 0, 0⟩) ∧
    ((farBody binary32).getRotation.transpose.mul (farBody binary32).getRotation =
        Matrix3r.identity ∧
      producedPoints (farInitExternals binary32) "scenes/demo.json" (farScene binary32) false
        { samplesFile := "", meshFile := "a.obj", scale := ⟨1, 1, 1⟩, isWall := false } 0 [] =
          [⟨1, 0, 0⟩] ∧
      ((initBoundaryData (farInitExternals binary32) "scenes/demo.json" (farScene binary32)
          false [farBody binary32] ⟨[ParticleObjectPtr.base ⟨[], [], []⟩]⟩).bind
        fun s => s.model.getRigidBodyParticleObject 0).map
          (fun p => (p.m_rigidBody, p.m_x0, p.m_x)) =
        some (farBody binary32, [⟨FloatReal.ofInt binary32 (-(2 ^ 70)), 0, 0⟩], [⟨0, 0, 0⟩]) ∧
      (⟨0, 0, 0⟩ : Vector3r (FloatReal binary32)) ≠ ⟨1, 0, 0⟩) :=
  ⟨⟨by decide, by decide, by decide, by decide⟩, ⟨by decide, by decide, by decide, by decide⟩⟩

end SPH
